import Mathlib

/-!
Shallow embedding of the `LuaContext` class of the `lua_utils` package
(files `src/context.cpp`, `include/lua_utils/context.h`,
`src/context_watcher.cpp`, `include/lua_utils/context_watcher.h`), in its
`USE_ROS` configuration (the configuration the repository builds; the
`#ifndef USE_ROS` blocks add only mutex locking and logging, which have no
effect on the values computed).

The wrapped Lua C API is modelled at the level of its observable effects:
a `LuaState` records the global variable table, the entries appended to
`package.path` / `package.cpath`, the set of modules loaded via `require`,
and the value stack.  A `World` is the set of currently open `lua_State`
handles (as produced by `luaL_newstate` / destroyed by `lua_close`),
so that claims about states being closed, leaked or swapped can be stated.
Operations additionally emit a trace of `Event`s recording the order of
observable actions (watcher callbacks, script execution, state swap), which
is how the temporal claims about `restart()` are stated.

Foreign code (watcher callbacks, the body of executed Lua scripts) is
modelled only by whether it throws; its mutations of the Lua state are not
modelled.  Events are recorded for operations that complete successfully.
-/

namespace LuaUtils

/-- A `void *` usertype data pointer, modelled as an opaque identifier. -/
abbrev Ptr := Nat

/-- A `lua_CFunction` pointer, modelled as an opaque identifier. -/
abbrev CFun := Nat

/-- A `lua_Number` (C `double`).  The embedded code only stores and
retrieves numbers, never computes with them, so the carrier is opaque. -/
structure LuaNumber where
  val : Int
deriving DecidableEq, Repr

/-- A Lua value, as far as the wrapper manipulates values. -/
inductive LuaVal where
  | nil
  | boolean (b : Bool)
  | number (x : LuaNumber)
  | integer (n : Int)
  | str (s : String)
  | cfunction (f : CFun)
  | usertype (data : Ptr) (typeName : String)
deriving DecidableEq, Repr

/-- Association-list lookup; models `std::map::find`. -/
def alFind {K α : Type} [DecidableEq K] (m : List (K × α)) (k : K) : Option α :=
  match m with
  | [] => none
  | (k2, v) :: rest => if k2 = k then some v else alFind rest k

/-- Association-list insert-or-overwrite; models `std::map::operator[] =`. -/
def alInsert {K α : Type} [DecidableEq K] (m : List (K × α)) (k : K) (v : α) :
    List (K × α) :=
  match m with
  | [] => [(k, v)]
  | (k2, v2) :: rest =>
    if k2 = k then (k, v) :: rest else (k2, v2) :: alInsert rest k v

/-- Association-list erase; models `std::map::erase`. -/
def alErase {K α : Type} [DecidableEq K] (m : List (K × α)) (k : K) :
    List (K × α) :=
  m.filter (fun p => decide (p.1 ≠ k))

/-- Membership test; models `std::map::find(k) != end()`. -/
def alContains {K α : Type} [DecidableEq K] (m : List (K × α)) (k : K) : Bool :=
  (alFind m k).isSome

/-- The keys of an association list. -/
def alKeys {K α : Type} (m : List (K × α)) : List K :=
  m.map Prod.fst

/-- The identifier of the `debug.traceback` function fetched by
`init_state` when tracebacks are enabled. -/
def debugTracebackFn : CFun := 0

/-- Observable content of one `lua_State`:
* `globals`: the global variable table (only host-set bindings are modelled);
* `packagePath` / `packageCPath`: the directory entries this wrapper has
  appended to `package.path` / `package.cpath` (the interpreter's built-in
  default entries are left implicit);
* `loaded`: modules loaded via `require`, in load order;
* `stack`: the value stack, element 0 being Lua stack index 1 (the bottom). -/
structure LuaState where
  globals : List (String × LuaVal)
  packagePath : List String
  packageCPath : List String
  loaded : List String
  stack : List LuaVal
deriving DecidableEq, Repr

/-- The state `luaL_newstate` returns, before any wrapper initialization. -/
def emptyLuaState : LuaState :=
  { globals := [], packagePath := [], packageCPath := [], loaded := [],
    stack := [] }

/-- The collection of currently open `lua_State`s, keyed by handle.
`luaL_newstate` allocates a fresh handle; `lua_close` removes one. -/
structure World where
  nextId : Nat
  states : List (Nat × LuaState)
deriving DecidableEq, Repr

/-- Look up an open state by handle. -/
def World.find (w : World) (h : Nat) : Option LuaState :=
  alFind w.states h

/-- Is the handle an open state? -/
def World.isOpen (w : World) (h : Nat) : Bool :=
  alContains w.states h

/-- `luaL_newstate`: allocate a fresh state under a fresh handle. -/
def luaNewState (w : World) : World × Nat :=
  ({ nextId := w.nextId + 1,
     states := w.states ++ [(w.nextId, emptyLuaState)] }, w.nextId)

/-- `lua_close`: the handle stops being an open state. -/
def luaClose (w : World) (h : Nat) : World :=
  { w with states := alErase w.states h }

/-- Apply a function to the state stored under a handle (no-op if closed). -/
def World.updateState (w : World) (h : Nat) (f : LuaState → LuaState) : World :=
  { w with states := w.states.map (fun p => if p.1 = h then (p.1, f p.2) else p) }

/-- `lua_setglobal` after pushing value `v`: store `v` under `name` in the
global table of state `h`. -/
def setGlobalIn (w : World) (h : Nat) (name : String) (v : LuaVal) : World :=
  w.updateState h (fun st => { st with globals := alInsert st.globals name v })

/-- Observable actions emitted by the wrapper, used to state the temporal
claims about the restart protocol. -/
inductive Event where
  | addPackagePath (h : Nat) (dir : String)
  | addCPackagePath (h : Nat) (dir : String)
  | requirePackage (h : Nat) (pkg : String)
  | setGlobalVar (h : Nat) (name : String) (v : LuaVal)
  | doFileEvent (h : Nat) (path : String)
  | luaInitCall (wid : Nat)
  | luaFinalizeCall (wid : Nat)
  | luaRestartedCall (wid : Nat)
  | swapStates (oldH newH : Nat)
  | closeState (h : Nat)
deriving DecidableEq, Repr

/-- A registered `LuaContextWatcher`.  Its callbacks are foreign code; the
embedding models only whether each callback throws. -/
structure Watcher where
  wid : Nat
  initThrows : Bool
  finalizeThrows : Bool
  restartedThrows : Bool
deriving DecidableEq, Repr

/-- The `FileAlterationMonitor` owned by a watching context: the registered
regex filters, the watched directories and files, and whether the context
registered itself as listener. -/
structure FileAlterationMonitor where
  filters : List String
  watchedDirs : List String
  watchedFiles : List String
  hasListener : Bool
deriving DecidableEq, Repr

/-- The regex filter literal installed by the watching constructor,
`"^[^.].*\\.lua$"` in C source notation. -/
def luaFileFilter : String := "^[^.].*\\.lua$"

/-- The environment supplied by the operating system and the Lua
interpreter: whether `access(path, R_OK) == 0`, and whether executing a
file / requiring a module succeeds or raises a Lua error. -/
structure Env where
  readable : String → Bool
  doFileOk : String → Bool
  requireOk : String → Bool

/-- The `LuaContext` object: the current state handle `lState` (`__L`),
ownership flag, traceback flag, the optional file alteration monitor, the
optional start script, and the declarative binding lists and maps that
`init_state` replays into every fresh state. -/
structure LuaContext where
  lState : Nat
  owns_L : Bool
  enable_tracebacks : Bool
  fam : Option FileAlterationMonitor
  start_script : Option String
  package_dirs : List String
  cpackage_dirs : List String
  packages : List String
  usertypes : List (String × (Ptr × String))
  strings : List (String × String)
  booleans : List (String × Bool)
  numbers : List (String × LuaNumber)
  integers : List (String × Int)
  cfunctions : List (String × CFun)
  watchers : List Watcher
deriving DecidableEq, Repr

/-- The wrapper constructor `LuaContext(lua_State *L)`: wraps an existing
state without owning it.  The binding containers are default-constructed
empty; `__enable_tracebacks` is left uninitialized by the source
constructor and is modelled as `false` (its value is never read through a
wrapper context in the code paths embedded here). -/
def wrapLuaContext (h : Nat) : LuaContext :=
  { lState := h, owns_L := false, enable_tracebacks := false, fam := none,
    start_script := none, package_dirs := [], cpackage_dirs := [],
    packages := [], usertypes := [], strings := [], booleans := [],
    numbers := [], integers := [], cfunctions := [], watchers := [] }

/-- Effect of `do_string(L, "package.path = package.path .. \";%s/?.lua;%s/?/init.lua\"", dir, dir)`:
append one directory entry to `package.path` of state `h`. -/
def addPackagePathIn (w : World) (h : Nat) (dir : String) : World :=
  w.updateState h (fun st => { st with packagePath := st.packagePath ++ [dir] })

/-- Effect of `do_string(L, "package.cpath = package.cpath .. \";%s/?.so\"", dir)`. -/
def addCPackagePathIn (w : World) (h : Nat) (dir : String) : World :=
  w.updateState h (fun st => { st with packageCPath := st.packageCPath ++ [dir] })

/-- Effect of a successful `do_string(L, "require(\"%s\")", pkg)`. -/
def requireIn (w : World) (h : Nat) (pkg : String) : World :=
  w.updateState h (fun st => { st with loaded := st.loaded ++ [pkg] })

/-- The `package.path` loop of `init_state`. -/
def addPackagePaths (h : Nat) (dirs : List String) (w : World) :
    World × List Event :=
  match dirs with
  | [] => (w, [])
  | d :: rest =>
    let res := addPackagePaths h rest (addPackagePathIn w h d)
    (res.1, Event.addPackagePath h d :: res.2)

/-- The `package.cpath` loop of `init_state`. -/
def addCPackagePaths (h : Nat) (dirs : List String) (w : World) :
    World × List Event :=
  match dirs with
  | [] => (w, [])
  | d :: rest =>
    let res := addCPackagePaths h rest (addCPackagePathIn w h d)
    (res.1, Event.addCPackagePath h d :: res.2)

/-- The `require` loop of `init_state`.  A failing `require` raises a Lua
error, which `do_string` turns into a thrown `LuaRuntimeException`,
aborting the loop; the third component reports that exception. -/
def requirePkgs (env : Env) (h : Nat) (pkgs : List String) (w : World) :
    World × List Event × Option String :=
  match pkgs with
  | [] => (w, [], none)
  | p :: rest =>
    if env.requireOk p then
      let res := requirePkgs env h rest (requireIn w h p)
      (res.1, Event.requirePackage h p :: res.2.1, res.2.2)
    else
      (w, [], some ("Lua runtime error requiring package " ++ p))

/-- The six global-replay loops of `init_state`, over the concatenated
binding entries (the loops run in the source order usertypes, strings,
booleans, numbers, integers, cfunctions). -/
def replayGlobals (h : Nat) (entries : List (String × LuaVal)) (w : World) :
    World × List Event :=
  match entries with
  | [] => (w, [])
  | (n, v) :: rest =>
    let res := replayGlobals h rest (setGlobalIn w h n v)
    (res.1, Event.setGlobalVar h n v :: res.2)

/-- The opening phase of `init_state`: `luaL_newstate`, `luaL_openlibs`,
and, when tracebacks are enabled, fetching `debug.traceback` onto the
stack (leaving it as the sole stack entry, Lua index 1). -/
def newStateWithTraceback (tb : Bool) (w : World) : World × Nat :=
  let wh := luaNewState w
  (if tb then
     wh.1.updateState wh.2 (fun st =>
       { st with stack := st.stack ++ [LuaVal.cfunction debugTracebackFn] })
   else wh.1, wh.2)

/-- The watcher `lua_init` loop of `init_state`: each watcher's `lua_init`
is called with a temporary wrapper context around the new state; the first
throw aborts the loop (the exception is reported as the third component,
to be rethrown by `init_state` after closing the new state). -/
def runLuaInits (ws : List Watcher) (w : World) :
    World × List Event × Option String :=
  match ws with
  | [] => (w, [], none)
  | wt :: rest =>
    if wt.initThrows then
      (w, [Event.luaInitCall wt.wid], some ("watcher lua_init threw"))
    else
      let res := runLuaInits rest w
      (res.1, Event.luaInitCall wt.wid :: res.2.1, res.2.2)

/-- The destructor `~LuaContext`: when the context owns its state it calls
`lua_finalize` on every watcher (per-watcher exceptions are caught and only
logged, so every watcher is notified) and then closes the state; a
non-owning wrapper does neither. -/
def destroyContext (ctx : LuaContext) (w : World) : World × List Event :=
  if ctx.owns_L then
    (luaClose w ctx.lState,
     ctx.watchers.map (fun wt => Event.luaFinalizeCall wt.wid)
       ++ [Event.closeState ctx.lState])
  else
    (w, [])

/-- Start-script execution as performed at the end of `init_state`: if
`access(script, R_OK) == 0` the script is run via `do_file`, otherwise it
is loaded via `require`; either can throw. -/
def runStartScript (env : Env) (h : Nat) (s : Option String) (w : World) :
    World × List Event × Option String :=
  match s with
  | none => (w, [], none)
  | some script =>
    if env.readable script then
      if env.doFileOk script then (w, [Event.doFileEvent h script], none)
      else (w, [], some ("do_file of start script failed"))
    else
      if env.requireOk script then
        (requireIn w h script, [Event.requirePackage h script], none)
      else (w, [], some ("require of start script failed"))

/-- Entries `(name, value)` of one binding map, with values encoded as the
Lua values that `init_state` pushes for them. -/
inductive Kind where
  | usertype
  | string
  | boolean
  | number
  | integer
  | cfunction
deriving DecidableEq, Repr

/-- The `type` string that the corresponding `set_*` method passes to
`assert_unique_name`. -/
def Kind.typeStr : Kind → String
  | .usertype => "usertype"
  | .string => "string"
  | .boolean => "boolean"
  | .number => "number"
  | .integer => "integer"
  | .cfunction => "cfunction"

/-- The binding entries of one kind, as global-variable assignments. -/
def LuaContext.entriesOf (ctx : LuaContext) : Kind → List (String × LuaVal)
  | .usertype => ctx.usertypes.map (fun p => (p.1, LuaVal.usertype p.2.1 p.2.2))
  | .string => ctx.strings.map (fun p => (p.1, LuaVal.str p.2))
  | .boolean => ctx.booleans.map (fun p => (p.1, LuaVal.boolean p.2))
  | .number => ctx.numbers.map (fun p => (p.1, LuaVal.number p.2))
  | .integer => ctx.integers.map (fun p => (p.1, LuaVal.integer p.2))
  | .cfunction => ctx.cfunctions.map (fun p => (p.1, LuaVal.cfunction p.2))

/-- All binding entries, concatenated in the order of the six replay loops
of `init_state`. -/
def LuaContext.bindingEntries (ctx : LuaContext) : List (String × LuaVal) :=
  ctx.entriesOf .usertype ++ ctx.entriesOf .string ++ ctx.entriesOf .boolean
    ++ ctx.entriesOf .number ++ ctx.entriesOf .integer ++ ctx.entriesOf .cfunction

instance {ε α : Type} [DecidableEq ε] [DecidableEq α] :
    DecidableEq (Except ε α) := fun x y =>
  match x, y with
  | .ok a, .ok b =>
    if h : a = b then isTrue (by rw [h]) else isFalse (by simp [h])
  | .error a, .error b =>
    if h : a = b then isTrue (by rw [h]) else isFalse (by simp [h])
  | .ok _, .error _ => isFalse (by simp)
  | .error _, .ok _ => isFalse (by simp)

/-- Result of `init_state`: the world after the call, the emitted trace,
and either the handle of the freshly initialized state or the thrown
exception. -/
structure InitResult where
  world : World
  trace : List Event
  newState : Except String Nat
deriving DecidableEq, Repr

/-- `LuaContext::init_state`: create a fresh state, open the standard
libraries (and fetch `debug.traceback` to the stack bottom when tracebacks
are enabled), append the recorded package and C package directories to its
search paths, `require` the recorded packages, replay the six binding maps
as globals, run every watcher's `lua_init` on a temporary wrapper context
(closing the new state and rethrowing if one throws), and finally run the
start script.  Note that the source closes the new state only on the
`lua_init` path: a throw from the `require` loop or from the start script
propagates without a `lua_close` of the partially built state. -/
def init_state (env : Env) (ctx : LuaContext) (w0 : World) : InitResult :=
  let wh := newStateWithTraceback ctx.enable_tracebacks w0
  let h := wh.2
  let r2 := addPackagePaths h ctx.package_dirs wh.1
  let r3 := addCPackagePaths h ctx.cpackage_dirs r2.1
  let r4 := requirePkgs env h ctx.packages r3.1
  let tr0 := r2.2 ++ r3.2 ++ r4.2.1
  match r4.2.2 with
  | some e => { world := r4.1, trace := tr0, newState := Except.error e }
  | none =>
    let r5 := replayGlobals h ctx.bindingEntries r4.1
    let r6 := runLuaInits ctx.watchers r5.1
    let tr1 := tr0 ++ r5.2 ++ r6.2.1
    match r6.2.2 with
    | some e =>
      let r7 := destroyContext (wrapLuaContext h) r6.1
      { world := luaClose r7.1 h,
        trace := tr1 ++ r7.2 ++ [Event.closeState h],
        newState := Except.error e }
    | none =>
      let r7 := destroyContext (wrapLuaContext h) r6.1
      let r8 := runStartScript env h ctx.start_script r7.1
      match r8.2.2 with
      | some e =>
        { world := r8.1, trace := tr1 ++ r7.2 ++ r8.2.1,
          newState := Except.error e }
      | none =>
        { world := r8.1, trace := tr1 ++ r7.2 ++ r8.2.1,
          newState := Except.ok h }

/-- Result of `restart` (and of the file-alteration pipeline that invokes
it): the context, the world and the emitted trace. -/
structure RestartResult where
  ctx : LuaContext
  world : World
  trace : List Event
deriving DecidableEq, Repr

/-- `LuaContext::restart`: initialize a new state via `init_state` inside a
`try` block; on success call every watcher's `lua_finalize` (per-watcher
exceptions caught and logged), swap `__L` to the new state, close the old
state, and call every watcher's `lua_restarted` (per-watcher exceptions
caught and logged).  A throw out of `init_state` is caught: the old state
is kept and no further callback runs. -/
def restart (env : Env) (ctx : LuaContext) (w0 : World) : RestartResult :=
  let ir := init_state env ctx w0
  match ir.newState with
  | Except.error _ => { ctx := ctx, world := ir.world, trace := ir.trace }
  | Except.ok h =>
    let tL := ctx.lState
    let finEvs := ctx.watchers.map (fun wt => Event.luaFinalizeCall wt.wid)
    let resEvs := ctx.watchers.map (fun wt => Event.luaRestartedCall wt.wid)
    { ctx := { ctx with lState := h },
      world := luaClose ir.world tL,
      trace := ir.trace ++ finEvs
        ++ [Event.swapStates tL h, Event.closeState tL] ++ resEvs }

/-- The default constructor `LuaContext(bool watch_dirs, bool
enable_tracebacks)`: owns its state; when `watch_dirs` is true it creates a
`FileAlterationMonitor`, adds the filter `"^[^.].*\\.lua$"` and registers
itself as listener; then `__L = init_state()`.  On a fresh context the
binding containers are empty, so `init_state` cannot throw; the error arm
is present only to make the match total. -/
def newLuaContext (env : Env) (watch_dirs enable_tracebacks : Bool)
    (w0 : World) : LuaContext × World :=
  let fam : Option FileAlterationMonitor :=
    if watch_dirs then
      some { filters := [luaFileFilter], watchedDirs := [], watchedFiles := [],
             hasListener := true }
    else none
  let ctx0 : LuaContext :=
    { lState := 0, owns_L := true, enable_tracebacks := enable_tracebacks,
      fam := fam, start_script := none, package_dirs := [], cpackage_dirs := [],
      packages := [], usertypes := [], strings := [], booleans := [],
      numbers := [], integers := [], cfunctions := [], watchers := [] }
  let ir := init_state env ctx0 w0
  match ir.newState with
  | Except.ok h => ({ ctx0 with lState := h }, ir.world)
  | Except.error _ => (ctx0, ir.world)

/-- `LuaContext::assert_unique_name`: throws if the name is recorded in any
binding map of a different kind than `ty`.  The returned option is the
thrown exception message, `none` when the check passes. -/
def assert_unique_name (ctx : LuaContext) (name ty : String) : Option String :=
  if ty != "usertype" && alContains ctx.usertypes name then
    some ("User type entry already exists for name " ++ name)
  else if ty != "string" && alContains ctx.strings name then
    some ("String entry already exists for name " ++ name)
  else if ty != "boolean" && alContains ctx.booleans name then
    some ("Boolean entry already exists for name " ++ name)
  else if ty != "number" && alContains ctx.numbers name then
    some ("Number entry already exists for name " ++ name)
  else if ty != "integer" && alContains ctx.integers name then
    some ("Integer entry already exists for name " ++ name)
  else if ty != "cfunction" && alContains ctx.cfunctions name then
    some ("Cfunction entry already exists for name " ++ name)
  else
    none

/-- The qualified tolua++ type name computed by `set_usertype`:
`name_space` set means `type_n = name_space + "::" + type_name`. -/
def qualifiedType (type_name : String) (name_space : Option String) : String :=
  match name_space with
  | some ns => ns ++ "::" ++ type_name
  | none => type_name

/-- `LuaContext::set_usertype`: check name uniqueness (throwing before any
modification), record the binding in `__usertypes`, and set the global in
the current state.  The first component is the thrown exception, if any. -/
def set_usertype (ctx : LuaContext) (name : String) (data : Ptr)
    (type_name : String) (name_space : Option String) (w : World) :
    Option String × LuaContext × World :=
  let type_n := qualifiedType type_name name_space
  match assert_unique_name ctx name ("usertype") with
  | some e => (some e, ctx, w)
  | none =>
    (none, { ctx with usertypes := alInsert ctx.usertypes name (data, type_n) },
     setGlobalIn w ctx.lState name (LuaVal.usertype data type_n))

/-- `LuaContext::set_string`. -/
def set_string (ctx : LuaContext) (name value : String) (w : World) :
    Option String × LuaContext × World :=
  match assert_unique_name ctx name ("string") with
  | some e => (some e, ctx, w)
  | none =>
    (none, { ctx with strings := alInsert ctx.strings name value },
     setGlobalIn w ctx.lState name (LuaVal.str value))

/-- `LuaContext::set_boolean`. -/
def set_boolean (ctx : LuaContext) (name : String) (value : Bool) (w : World) :
    Option String × LuaContext × World :=
  match assert_unique_name ctx name ("boolean") with
  | some e => (some e, ctx, w)
  | none =>
    (none, { ctx with booleans := alInsert ctx.booleans name value },
     setGlobalIn w ctx.lState name (LuaVal.boolean value))

/-- `LuaContext::set_number`. -/
def set_number (ctx : LuaContext) (name : String) (value : LuaNumber)
    (w : World) : Option String × LuaContext × World :=
  match assert_unique_name ctx name ("number") with
  | some e => (some e, ctx, w)
  | none =>
    (none, { ctx with numbers := alInsert ctx.numbers name value },
     setGlobalIn w ctx.lState name (LuaVal.number value))

/-- `LuaContext::set_integer`. -/
def set_integer (ctx : LuaContext) (name : String) (value : Int) (w : World) :
    Option String × LuaContext × World :=
  match assert_unique_name ctx name ("integer") with
  | some e => (some e, ctx, w)
  | none =>
    (none, { ctx with integers := alInsert ctx.integers name value },
     setGlobalIn w ctx.lState name (LuaVal.integer value))

/-- `LuaContext::set_cfunction`. -/
def set_cfunction (ctx : LuaContext) (name : String) (f : CFun) (w : World) :
    Option String × LuaContext × World :=
  match assert_unique_name ctx name ("cfunction") with
  | some e => (some e, ctx, w)
  | none =>
    (none, { ctx with cfunctions := alInsert ctx.cfunctions name f },
     setGlobalIn w ctx.lState name (LuaVal.cfunction f))

/-- The argument type of the `set_*` method for each kind (`set_usertype`
takes data, type name and optional namespace). -/
def KindVal : Kind → Type
  | .usertype => Ptr × String × Option String
  | .string => String
  | .boolean => Bool
  | .number => LuaNumber
  | .integer => Int
  | .cfunction => CFun

/-- Kind-indexed dispatch to the six `set_*` methods. -/
def set_of_kind : (k : Kind) → LuaContext → String → KindVal k → World →
    Option String × LuaContext × World
  | .usertype, ctx, name, v, w => set_usertype ctx name v.1 v.2.1 v.2.2 w
  | .string, ctx, name, v, w => set_string ctx name v w
  | .boolean, ctx, name, v, w => set_boolean ctx name v w
  | .number, ctx, name, v, w => set_number ctx name v w
  | .integer, ctx, name, v, w => set_integer ctx name v w
  | .cfunction, ctx, name, v, w => set_cfunction ctx name v w

/-- The Lua value a successful `set_*` call of kind `k` assigns. -/
def encodeKind : (k : Kind) → KindVal k → LuaVal
  | .usertype, v => LuaVal.usertype v.1 (qualifiedType v.2.1 v.2.2)
  | .string, v => LuaVal.str v
  | .boolean, v => LuaVal.boolean v
  | .number, v => LuaVal.number v
  | .integer, v => LuaVal.integer v
  | .cfunction, v => LuaVal.cfunction v

/-- `LuaContext::add_package_dir`: append the directory to `package.path`
of the current state, record it in `__package_dirs`, and watch it when a
monitor exists. -/
def add_package_dir (ctx : LuaContext) (path : String) (w : World) :
    LuaContext × World × List Event :=
  let w2 := addPackagePathIn w ctx.lState path
  let fam2 := ctx.fam.map (fun f =>
    { f with watchedDirs := f.watchedDirs ++ [path] })
  ({ ctx with package_dirs := ctx.package_dirs ++ [path], fam := fam2 },
   w2, [Event.addPackagePath ctx.lState path])

/-- `LuaContext::add_cpackage_dir`. -/
def add_cpackage_dir (ctx : LuaContext) (path : String) (w : World) :
    LuaContext × World × List Event :=
  let w2 := addCPackagePathIn w ctx.lState path
  let fam2 := ctx.fam.map (fun f =>
    { f with watchedDirs := f.watchedDirs ++ [path] })
  ({ ctx with cpackage_dirs := ctx.cpackage_dirs ++ [path], fam := fam2 },
   w2, [Event.addCPackagePath ctx.lState path])

/-- `LuaContext::add_watchdir`: watch the directory when a monitor exists. -/
def add_watchdir (ctx : LuaContext) (path : String) : LuaContext :=
  { ctx with fam := ctx.fam.map (fun f =>
      { f with watchedDirs := f.watchedDirs ++ [path] }) }

/-- `LuaContext::add_watchfile`. -/
def add_watchfile (ctx : LuaContext) (path : String) : LuaContext :=
  { ctx with fam := ctx.fam.map (fun f =>
      { f with watchedFiles := f.watchedFiles ++ [path] }) }

/-- `LuaContext::add_package`: if the package is not yet recorded, require
it now (a throw from `require` propagates before the package is recorded)
and append it to `__packages`; if it is recorded, do nothing. -/
def add_package (env : Env) (ctx : LuaContext) (p : String) (w : World) :
    Option String × LuaContext × World × List Event :=
  if ctx.packages.contains p then (none, ctx, w, [])
  else if env.requireOk p then
    (none, { ctx with packages := ctx.packages ++ [p] },
     requireIn w ctx.lState p, [Event.requirePackage ctx.lState p])
  else
    (some ("Lua runtime error requiring package " ++ p), ctx, w, [])

/-- `LuaContext::set_start_script`: record the script (after freeing the
previous one) and execute it once immediately, via `do_file` when
`access(script, R_OK) == 0` and via `require` otherwise. -/
def set_start_script (env : Env) (ctx : LuaContext) (s : Option String)
    (w : World) : Option String × LuaContext × World × List Event :=
  match s with
  | none => (none, { ctx with start_script := none }, w, [])
  | some script =>
    let ctx2 := { ctx with start_script := some script }
    if env.readable script then
      if env.doFileOk script then
        (none, ctx2, w, [Event.doFileEvent ctx.lState script])
      else (some ("do_file of start script failed"), ctx2, w, [])
    else
      if env.requireOk script then
        (none, ctx2, requireIn w ctx.lState script,
         [Event.requirePackage ctx.lState script])
      else (some ("require of start script failed"), ctx2, w, [])

/-- The value stack of the context's current state. -/
def stackOf (w : World) (h : Nat) : List LuaVal :=
  match w.find h with
  | some st => st.stack
  | none => []

/-- `LuaContext::stack_size` (`lua_gettop`). -/
def LuaContext.stack_size (ctx : LuaContext) (w : World) : Int :=
  (stackOf w ctx.lState).length

/-- `LuaContext::pop`: with tracebacks enabled, `n >= stack_size()` throws
a `LuaRuntimeException` before `lua_pop` runs; otherwise the top `n` values
are removed. -/
def LuaContext.pop (ctx : LuaContext) (n : Int) (w : World) :
    Option String × World :=
  if ctx.enable_tracebacks && decide (ctx.stack_size w ≤ n) then
    (some ("Cannot pop traceback function, invalid n"), w)
  else
    (none, w.updateState ctx.lState (fun st =>
      { st with stack := st.stack.take (st.stack.length - n.toNat) }))

/-- `lua_remove` positioning: positive indices count from the bottom
(index 1 is element 0), negative indices count from the top. -/
def luaRemoveAt (st : List LuaVal) (idx : Int) : List LuaVal :=
  let pos : Int := if 0 < idx then idx - 1 else (st.length : Int) + idx
  st.eraseIdx pos.toNat

/-- `LuaContext::remove`: with tracebacks enabled, index 1 and index
`-stack_size()` (both denoting the bottom slot holding the traceback
function) throw a `LuaRuntimeException` before `lua_remove` runs. -/
def LuaContext.remove (ctx : LuaContext) (idx : Int) (w : World) :
    Option String × World :=
  if ctx.enable_tracebacks
      && (decide (idx = 1) || decide (idx = -(ctx.stack_size w))) then
    (some ("Cannot remove traceback function"), w)
  else
    (none, w.updateState ctx.lState (fun st =>
      { st with stack := luaRemoveAt st.stack idx }))

/-- `LuaContext::fam_event`: any delivered file alteration event restarts
the interpreter (the filename and mask are ignored). -/
def fam_event (env : Env) (ctx : LuaContext) (_filename : String) (_mask : Nat)
    (w : World) : RestartResult :=
  restart env ctx w

/-- Modelled from the spec: the `FileAlterationMonitor` implementation
(`fam.h` / `fam.cpp`) is not under `src/`; the spec describes file
alteration monitoring as a pre-existing host-framework service consumed by
this code.  This is the matching semantics of the one regex filter the
repository installs, `^[^.].*\.lua$`: one leading character that is not a
dot, then anything, then the literal suffix `.lua`. -/
def matchesFilter (pattern filename : String) : Bool :=
  if pattern = luaFileFilter then
    match filename.data with
    | [] => false
    | c :: rest => c != '.' && List.isSuffixOf ['.', 'l', 'u', 'a'] rest
  else
    false

/-- Modelled from the spec: the monitor delivers a change event for file
`filename` inside directory `dir` to its listener exactly when the
directory is watched and the filename passes a registered filter. -/
def famDelivers (f : FileAlterationMonitor) (dir filename : String) : Bool :=
  f.hasListener && f.watchedDirs.contains dir
    && f.filters.any (fun p => matchesFilter p filename)

/-- The hot-reload pipeline: a file change in `dir` reaches `fam_event`
(and hence `restart`) exactly when the context has a monitor and the
monitor delivers the event. -/
def processFamChange (env : Env) (ctx : LuaContext) (dir filename : String)
    (w : World) : RestartResult :=
  match ctx.fam with
  | none => { ctx := ctx, world := w, trace := [] }
  | some f =>
    if famDelivers f dir filename then fam_event env ctx filename 0 w
    else { ctx := ctx, world := w, trace := [] }

/-- Success conditions for `init_state` on a given context: every recorded
package requires successfully, no watcher's `lua_init` throws, and the
start script (when set) executes successfully under the dispatch rule. -/
def startScriptOkB (env : Env) (s : Option String) : Bool :=
  match s with
  | none => true
  | some script =>
    if env.readable script then env.doFileOk script else env.requireOk script

/-- All three phases of `init_state` that can throw succeed. -/
def initSucceeds (env : Env) (ctx : LuaContext) : Prop :=
  (∀ p ∈ ctx.packages, env.requireOk p = true) ∧
  (∀ wt ∈ ctx.watchers, wt.initThrows = false) ∧
  startScriptOkB env ctx.start_script = true

/-- Sequential insert-or-overwrite of a list of entries, the functional
content of the six global-replay loops. -/
def insertAll (g : List (String × LuaVal)) :
    List (String × LuaVal) → List (String × LuaVal)
  | [] => g
  | (n, v) :: rest => insertAll (alInsert g n v) rest

/-- The modules the start-script phase loads via `require` (none when the
script is an accessible file run by `do_file`). -/
def scriptLoaded (env : Env) (s : Option String) : List String :=
  match s with
  | none => []
  | some script => if env.readable script then [] else [script]

/-- The events the start-script phase emits on success. -/
def scriptTrace (env : Env) (h : Nat) (s : Option String) : List Event :=
  match s with
  | none => []
  | some script =>
    if env.readable script then [Event.doFileEvent h script]
    else [Event.requirePackage h script]

/-- The content of the fresh state after a successful `init_state`
(characterization; proved equal to the operational run below). -/
def initFinalState (env : Env) (ctx : LuaContext) : LuaState :=
  { globals := insertAll [] ctx.bindingEntries,
    packagePath := ctx.package_dirs,
    packageCPath := ctx.cpackage_dirs,
    loaded := ctx.packages ++ scriptLoaded env ctx.start_script,
    stack := if ctx.enable_tracebacks then [LuaVal.cfunction debugTracebackFn]
             else [] }

/-- The trace of a successful `init_state` on the fresh handle `h`
(characterization; proved equal to the operational run below). -/
def initTraceOk (env : Env) (ctx : LuaContext) (h : Nat) : List Event :=
  ctx.package_dirs.map (Event.addPackagePath h)
    ++ ctx.cpackage_dirs.map (Event.addCPackagePath h)
    ++ ctx.packages.map (Event.requirePackage h)
    ++ ctx.bindingEntries.map (fun p => Event.setGlobalVar h p.1 p.2)
    ++ ctx.watchers.map (fun wt => Event.luaInitCall wt.wid)
    ++ scriptTrace env h ctx.start_script

/-- Does the internal map of kind `k` record the name? -/
def kindContains (ctx : LuaContext) : Kind → String → Bool
  | .usertype, n => alContains ctx.usertypes n
  | .string, n => alContains ctx.strings n
  | .boolean, n => alContains ctx.booleans n
  | .number, n => alContains ctx.numbers n
  | .integer, n => alContains ctx.integers n
  | .cfunction, n => alContains ctx.cfunctions n

/-- Is the event a watcher `lua_finalize` or `lua_restarted` notification? -/
def Event.isFinalizeOrRestarted : Event → Bool
  | .luaFinalizeCall _ => true
  | .luaRestartedCall _ => true
  | _ => false

/-- The value of global `n` in the state under handle `h`. -/
def globalOf (w : World) (h : Nat) (n : String) : Option LuaVal :=
  match w.find h with
  | some st => alFind st.globals n
  | none => none

/-- The entries appended to `package.path` of the state under handle `h`. -/
def packagePathOf (w : World) (h : Nat) : List String :=
  match w.find h with
  | some st => st.packagePath
  | none => []

/-- The entries appended to `package.cpath` of the state under handle `h`. -/
def packageCPathOf (w : World) (h : Nat) : List String :=
  match w.find h with
  | some st => st.packageCPath
  | none => []

/-- The modules loaded via `require` in the state under handle `h`. -/
def loadedOf (w : World) (h : Nat) : List String :=
  match w.find h with
  | some st => st.loaded
  | none => []

/-- A world holding a single freshly created interpreter state, as after
the default constructor ran on an empty world. -/
def wOne : World :=
  { nextId := 1, states := [(0, emptyLuaState)] }

/-- An environment in which every file is readable and every execution
succeeds. -/
def envAllOk : Env :=
  { readable := fun _ => true, doFileOk := fun _ => true,
    requireOk := fun _ => true }

/-- An environment in which no file is readable, `do_file` always fails and
`require` always raises a Lua error. -/
def envAllFail : Env :=
  { readable := fun _ => false, doFileOk := fun _ => false,
    requireOk := fun _ => false }

/-- An environment in which no file is readable but every `require`
succeeds. -/
def envRequireOnly : Env :=
  { readable := fun _ => false, doFileOk := fun _ => false,
    requireOk := fun _ => true }

/-- A context owning state 0 with no recorded bindings, as produced by the
default constructor with `watch_dirs = false`. -/
def ctxBase : LuaContext :=
  { lState := 0, owns_L := true, enable_tracebacks := true, fam := none,
    start_script := none, package_dirs := [], cpackage_dirs := [],
    packages := [], usertypes := [], strings := [], booleans := [],
    numbers := [], integers := [], cfunctions := [], watchers := [] }

/-- Is the event a watcher callback, the state swap, or a state close?
Used to state that the replay segments of a restart contain none of them. -/
def Event.isCallbackOrSwap : Event → Bool
  | .luaInitCall _ => true
  | .luaFinalizeCall _ => true
  | .luaRestartedCall _ => true
  | .swapStates _ _ => true
  | .closeState _ => true
  | _ => false

/-- A watcher none of whose callbacks throw. -/
def watcherOkA : Watcher :=
  { wid := 10, initThrows := false, finalizeThrows := false,
    restartedThrows := false }

/-- A watcher whose `lua_finalize` throws. -/
def watcherFinThrows : Watcher :=
  { wid := 11, initThrows := false, finalizeThrows := true,
    restartedThrows := false }

/-- A watcher whose `lua_init` throws. -/
def watcherInitThrows : Watcher :=
  { wid := 12, initThrows := true, finalizeThrows := false,
    restartedThrows := false }

/-- A context with one recorded binding of every kind, a package, and both
kinds of package directories. -/
def ctxBindings : LuaContext :=
  { ctxBase with
    package_dirs := ["/opt/lua"], cpackage_dirs := ["/opt/clua"],
    packages := ["mod"], strings := [("greeting", "hi")],
    booleans := [("flag", true)], numbers := [("pi", LuaNumber.mk 3)],
    integers := [("answer", 42)], cfunctions := [("cb", 7)],
    usertypes := [("robot", (5, "Robot"))] }

/-- A context with two recorded packages. -/
def ctxPackages : LuaContext :=
  { ctxBase with packages := ["alpha", "beta"] }

/-- A context with one recorded package (used with a failing `require`). -/
def ctxOnePkg : LuaContext :=
  { ctxBase with packages := ["foo"] }

/-- A context with two watchers, the second with a throwing finalizer. -/
def ctxWatched : LuaContext :=
  { ctxBase with watchers := [watcherOkA, watcherFinThrows] }

/-- A context whose single watcher throws from `lua_init`. -/
def ctxInitThrow : LuaContext :=
  { ctxBase with watchers := [watcherInitThrows] }

/-- A context with a recorded start script. -/
def ctxStartScript : LuaContext :=
  { ctxBase with start_script := some ("boot") }

/-- A monitor as installed by the watching constructor, with one watched
directory. -/
def famBase : FileAlterationMonitor :=
  { filters := [luaFileFilter], watchedDirs := ["/opt/lua"],
    watchedFiles := [], hasListener := true }

/-- A context owning a file alteration monitor. -/
def ctxFam : LuaContext :=
  { ctxBase with fam := some famBase }

/-! ### Association-list lemmas -/

theorem alFind_alInsert_self {K α : Type} [DecidableEq K]
    (m : List (K × α)) (k : K) (v : α) : alFind (alInsert m k v) k = some v := by
  induction m with
  | nil => simp [alInsert, alFind]
  | cons p rest ih =>
    by_cases h : p.1 = k
    · simp [alInsert, alFind, h]
    · simp [alInsert, alFind, h, ih]

theorem alFind_alInsert_ne {K α : Type} [DecidableEq K]
    (m : List (K × α)) (k k' : K) (v : α) (hne : k' ≠ k) :
    alFind (alInsert m k v) k' = alFind m k' := by
  induction m with
  | nil => simp [alInsert, alFind, hne.symm]
  | cons p rest ih =>
    by_cases h : p.1 = k
    · simp [alInsert, alFind, h, hne, hne.symm]
    · by_cases h2 : p.1 = k'
      · simp [alInsert, alFind, h, h2, hne]
      · simp [alInsert, alFind, h, h2, hne, ih]

theorem alFind_alErase_self {K α : Type} [DecidableEq K]
    (m : List (K × α)) (k : K) : alFind (alErase m k) k = none := by
  induction m with
  | nil => simp [alErase, alFind]
  | cons p rest ih =>
    by_cases h : p.1 = k
    · simpa [alErase, List.filter_cons, h] using ih
    · simpa [alErase, List.filter_cons, h, alFind] using ih

theorem alFind_alErase_ne {K α : Type} [DecidableEq K]
    (m : List (K × α)) (k k' : K) (hne : k' ≠ k) :
    alFind (alErase m k) k' = alFind m k' := by
  induction m with
  | nil => simp [alErase, alFind]
  | cons p rest ih =>
    by_cases h : p.1 = k
    · have h2 : p.1 ≠ k' := by rw [h]; exact hne.symm
      simpa [alErase, List.filter_cons, h, alFind, h2, hne, hne.symm] using ih
    · by_cases h2 : p.1 = k'
      · simp [alErase, List.filter_cons, h, alFind, h2, hne, hne.symm]
      · simpa [alErase, List.filter_cons, h, alFind, h2, hne, hne.symm] using ih

theorem alFind_append_ne {K α : Type} [DecidableEq K]
    (m : List (K × α)) (k k' : K) (v : α) (hne : k' ≠ k) :
    alFind (m ++ [(k, v)]) k' = alFind m k' := by
  induction m with
  | nil => simp [alFind, hne.symm]
  | cons p rest ih =>
    by_cases h : p.1 = k'
    · simp [alFind, h]
    · simp [alFind, h, ih]

theorem alFind_append_self {K α : Type} [DecidableEq K]
    (m : List (K × α)) (k : K) (v : α) (hfresh : alFind m k = none) :
    alFind (m ++ [(k, v)]) k = some v := by
  induction m with
  | nil => simp [alFind]
  | cons p rest ih =>
    by_cases h : p.1 = k
    · simp [alFind, h] at hfresh
    · simp [alFind, h] at hfresh ⊢
      exact ih hfresh

/-! ### World-update lemmas -/

theorem alFind_update_self (m : List (Nat × LuaState)) (h : Nat)
    (f : LuaState → LuaState) :
    alFind (m.map (fun p => if p.1 = h then (p.1, f p.2) else p)) h
      = (alFind m h).map f := by
  induction m with
  | nil => simp [alFind]
  | cons p rest ih =>
    simp only [List.map_cons]
    by_cases hp : p.1 = h
    · rw [if_pos hp]
      simp [alFind, hp]
    · rw [if_neg hp]
      simp [alFind, hp, ih]

theorem alFind_update_ne (m : List (Nat × LuaState)) (h h' : Nat)
    (f : LuaState → LuaState) (hne : h' ≠ h) :
    alFind (m.map (fun p => if p.1 = h then (p.1, f p.2) else p)) h'
      = alFind m h' := by
  induction m with
  | nil => simp [alFind]
  | cons p rest ih =>
    simp only [List.map_cons]
    by_cases hp : p.1 = h
    · have hne2 : p.1 ≠ h' := by rw [hp]; exact hne.symm
      rw [if_pos hp]
      simp only [alFind]
      rw [hp] at hne2 ⊢
      simp [hne2, ih]
    · rw [if_neg hp]
      by_cases hp2 : p.1 = h'
      · simp [alFind, hp2]
      · simp [alFind, hp2, ih]

theorem find_updateState_self (w : World) (h : Nat) (f : LuaState → LuaState) :
    (w.updateState h f).find h = (w.find h).map f := by
  simpa [World.find, World.updateState] using alFind_update_self w.states h f

theorem find_updateState_ne (w : World) (h h' : Nat) (f : LuaState → LuaState)
    (hne : h' ≠ h) : (w.updateState h f).find h' = w.find h' := by
  simpa [World.find, World.updateState] using alFind_update_ne w.states h h' f hne

theorem find_luaClose_self (w : World) (h : Nat) :
    (luaClose w h).find h = none := by
  show alFind (alErase w.states h) h = none
  exact alFind_alErase_self w.states h

theorem find_luaClose_ne (w : World) (h h' : Nat) (hne : h' ≠ h) :
    (luaClose w h).find h' = w.find h' := by
  show alFind (alErase w.states h) h' = alFind w.states h'
  exact alFind_alErase_ne w.states h h' hne

theorem isOpen_luaClose_self (w : World) (h : Nat) :
    (luaClose w h).isOpen h = false := by
  have hf := find_luaClose_self w h
  simp only [World.find] at hf
  simp [World.isOpen, alContains, hf]

/-! ### Phase lemmas for init_state -/

theorem find_luaNewState_self (w : World) (hfresh : w.isOpen w.nextId = false) :
    (luaNewState w).1.find w.nextId = some emptyLuaState := by
  have hn : alFind w.states w.nextId = none := by
    cases haf : alFind w.states w.nextId with
    | none => rfl
    | some st =>
      exfalso
      simp [World.isOpen, alContains, haf] at hfresh
  exact alFind_append_self w.states w.nextId emptyLuaState hn

theorem find_luaNewState_ne (w : World) (h' : Nat) (hne : h' ≠ w.nextId) :
    (luaNewState w).1.find h' = w.find h' :=
  alFind_append_ne w.states w.nextId h' emptyLuaState hne

theorem newStateWithTraceback_handle (tb : Bool) (w : World) :
    (newStateWithTraceback tb w).2 = w.nextId := rfl

theorem newStateWithTraceback_find (tb : Bool) (w : World)
    (hfresh : w.isOpen w.nextId = false) :
    (newStateWithTraceback tb w).1.find w.nextId
      = some { emptyLuaState with
               stack := if tb then [LuaVal.cfunction debugTracebackFn]
                        else [] } := by
  have hbase := find_luaNewState_self w hfresh
  cases tb with
  | false => simpa [newStateWithTraceback, emptyLuaState] using hbase
  | true =>
    show ((luaNewState w).1.updateState w.nextId (fun st =>
      { st with stack := st.stack ++ [LuaVal.cfunction debugTracebackFn] })).find
        w.nextId = _
    rw [find_updateState_self, hbase]
    simp [emptyLuaState]

theorem newStateWithTraceback_frame (tb : Bool) (w : World) (h' : Nat)
    (hne : h' ≠ w.nextId) :
    (newStateWithTraceback tb w).1.find h' = w.find h' := by
  have hbase := find_luaNewState_ne w h' hne
  cases tb with
  | false => simpa [newStateWithTraceback] using hbase
  | true =>
    show ((luaNewState w).1.updateState w.nextId (fun st =>
      { st with stack := st.stack ++ [LuaVal.cfunction debugTracebackFn] })).find
        h' = _
    rw [find_updateState_ne _ _ _ _ hne, hbase]

theorem addPackagePaths_find (h : Nat) (dirs : List String) (w : World)
    (st : LuaState) (hf : w.find h = some st) :
    (addPackagePaths h dirs w).1.find h
      = some { st with packagePath := st.packagePath ++ dirs } := by
  induction dirs generalizing w st with
  | nil => simpa [addPackagePaths] using hf
  | cons d rest ih =>
    have hstep : (addPackagePathIn w h d).find h
        = some { st with packagePath := st.packagePath ++ [d] } := by
      simp [addPackagePathIn, find_updateState_self, hf]
    have hr := ih (addPackagePathIn w h d) _ hstep
    simpa [addPackagePaths, List.append_assoc] using hr

theorem addPackagePaths_trace (h : Nat) (dirs : List String) (w : World) :
    (addPackagePaths h dirs w).2 = dirs.map (Event.addPackagePath h) := by
  induction dirs generalizing w with
  | nil => rfl
  | cons d rest ih => simp [addPackagePaths, ih]

theorem addPackagePaths_frame (h : Nat) (dirs : List String) (w : World)
    (h' : Nat) (hne : h' ≠ h) :
    (addPackagePaths h dirs w).1.find h' = w.find h' := by
  induction dirs generalizing w with
  | nil => rfl
  | cons d rest ih =>
    have hr := ih (addPackagePathIn w h d)
    simpa [addPackagePaths, addPackagePathIn,
      find_updateState_ne _ _ _ _ hne] using hr

theorem addCPackagePaths_find (h : Nat) (dirs : List String) (w : World)
    (st : LuaState) (hf : w.find h = some st) :
    (addCPackagePaths h dirs w).1.find h
      = some { st with packageCPath := st.packageCPath ++ dirs } := by
  induction dirs generalizing w st with
  | nil => simpa [addCPackagePaths] using hf
  | cons d rest ih =>
    have hstep : (addCPackagePathIn w h d).find h
        = some { st with packageCPath := st.packageCPath ++ [d] } := by
      simp [addCPackagePathIn, find_updateState_self, hf]
    have hr := ih (addCPackagePathIn w h d) _ hstep
    simpa [addCPackagePaths, List.append_assoc] using hr

theorem addCPackagePaths_trace (h : Nat) (dirs : List String) (w : World) :
    (addCPackagePaths h dirs w).2 = dirs.map (Event.addCPackagePath h) := by
  induction dirs generalizing w with
  | nil => rfl
  | cons d rest ih => simp [addCPackagePaths, ih]

theorem addCPackagePaths_frame (h : Nat) (dirs : List String) (w : World)
    (h' : Nat) (hne : h' ≠ h) :
    (addCPackagePaths h dirs w).1.find h' = w.find h' := by
  induction dirs generalizing w with
  | nil => rfl
  | cons d rest ih =>
    have hr := ih (addCPackagePathIn w h d)
    simpa [addCPackagePaths, addCPackagePathIn,
      find_updateState_ne _ _ _ _ hne] using hr

theorem requirePkgs_find (env : Env) (h : Nat) (pkgs : List String)
    (hok : ∀ p ∈ pkgs, env.requireOk p = true) (w : World) (st : LuaState)
    (hf : w.find h = some st) :
    (requirePkgs env h pkgs w).1.find h
      = some { st with loaded := st.loaded ++ pkgs } := by
  induction pkgs generalizing w st with
  | nil => simpa [requirePkgs] using hf
  | cons p rest ih =>
    have hp : env.requireOk p = true := hok p (by simp)
    have hstep : (requireIn w h p).find h
        = some { st with loaded := st.loaded ++ [p] } := by
      simp [requireIn, find_updateState_self, hf]
    have hrest : ∀ q ∈ rest, env.requireOk q = true :=
      fun q hq => hok q (by simp [hq])
    have hr := ih hrest (requireIn w h p) _ hstep
    simpa [requirePkgs, hp, List.append_assoc] using hr

theorem requirePkgs_err (env : Env) (pkgs : List String)
    (hok : ∀ p ∈ pkgs, env.requireOk p = true) (h : Nat) (w : World) :
    (requirePkgs env h pkgs w).2.2 = none := by
  induction pkgs generalizing w with
  | nil => rfl
  | cons p rest ih =>
    have hp : env.requireOk p = true := hok p (by simp)
    have hrest : ∀ q ∈ rest, env.requireOk q = true :=
      fun q hq => hok q (by simp [hq])
    simp [requirePkgs, hp, ih hrest]

theorem requirePkgs_trace (env : Env) (pkgs : List String)
    (hok : ∀ p ∈ pkgs, env.requireOk p = true) (h : Nat) (w : World) :
    (requirePkgs env h pkgs w).2.1 = pkgs.map (Event.requirePackage h) := by
  induction pkgs generalizing w with
  | nil => rfl
  | cons p rest ih =>
    have hp : env.requireOk p = true := hok p (by simp)
    have hrest : ∀ q ∈ rest, env.requireOk q = true :=
      fun q hq => hok q (by simp [hq])
    simp [requirePkgs, hp, ih hrest]

theorem requirePkgs_frame (env : Env) (h : Nat) (pkgs : List String)
    (w : World) (h' : Nat) (hne : h' ≠ h) :
    (requirePkgs env h pkgs w).1.find h' = w.find h' := by
  induction pkgs generalizing w with
  | nil => rfl
  | cons p rest ih =>
    by_cases hp : env.requireOk p
    · have hr := ih (requireIn w h p)
      simpa [requirePkgs, hp, requireIn,
        find_updateState_ne _ _ _ _ hne] using hr
    · simp [requirePkgs, hp]

theorem replayGlobals_find (h : Nat) (entries : List (String × LuaVal))
    (w : World) (st : LuaState) (hf : w.find h = some st) :
    (replayGlobals h entries w).1.find h
      = some { st with globals := insertAll st.globals entries } := by
  induction entries generalizing w st with
  | nil => simpa [replayGlobals, insertAll] using hf
  | cons e rest ih =>
    obtain ⟨n, v⟩ := e
    have hstep : (setGlobalIn w h n v).find h
        = some { st with globals := alInsert st.globals n v } := by
      simp [setGlobalIn, find_updateState_self, hf]
    have hr := ih (setGlobalIn w h n v) _ hstep
    simpa [replayGlobals, insertAll] using hr

theorem replayGlobals_trace (h : Nat) (entries : List (String × LuaVal))
    (w : World) :
    (replayGlobals h entries w).2
      = entries.map (fun p => Event.setGlobalVar h p.1 p.2) := by
  induction entries generalizing w with
  | nil => rfl
  | cons e rest ih =>
    obtain ⟨n, v⟩ := e
    simp [replayGlobals, ih]

theorem replayGlobals_frame (h : Nat) (entries : List (String × LuaVal))
    (w : World) (h' : Nat) (hne : h' ≠ h) :
    (replayGlobals h entries w).1.find h' = w.find h' := by
  induction entries generalizing w with
  | nil => rfl
  | cons e rest ih =>
    obtain ⟨n, v⟩ := e
    have hr := ih (setGlobalIn w h n v)
    simpa [replayGlobals, setGlobalIn,
      find_updateState_ne _ _ _ _ hne] using hr

theorem runLuaInits_ok (ws : List Watcher)
    (hok : ∀ wt ∈ ws, wt.initThrows = false) (w : World) :
    runLuaInits ws w
      = (w, ws.map (fun wt => Event.luaInitCall wt.wid), none) := by
  induction ws generalizing w with
  | nil => rfl
  | cons wt rest ih =>
    have hw : wt.initThrows = false := hok wt (by simp)
    have hrest : ∀ x ∈ rest, x.initThrows = false :=
      fun x hx => hok x (by simp [hx])
    simp [runLuaInits, hw, ih hrest]

theorem runLuaInits_world (ws : List Watcher) (w : World) :
    (runLuaInits ws w).1 = w := by
  induction ws generalizing w with
  | nil => rfl
  | cons wt rest ih =>
    by_cases h : wt.initThrows <;> simp [runLuaInits, h, ih]

theorem runLuaInits_throws (ws : List Watcher) (w : World)
    (hthrow : ∃ wt ∈ ws, wt.initThrows = true) :
    (runLuaInits ws w).2.2.isSome = true := by
  induction ws generalizing w with
  | nil =>
    rcases hthrow with ⟨wt, hmem, _⟩
    cases hmem
  | cons wt rest ih =>
    by_cases h : wt.initThrows
    · simp [runLuaInits, h]
    · rcases hthrow with ⟨wt2, hmem, ht2⟩
      rcases List.mem_cons.mp hmem with rfl | hmem2
      · exact absurd ht2 h
      · simpa [runLuaInits, h] using ih w ⟨wt2, hmem2, ht2⟩

theorem destroyContext_wrapper (h : Nat) (w : World) :
    destroyContext (wrapLuaContext h) w = (w, []) := by
  simp [destroyContext, wrapLuaContext]

theorem runStartScript_find (env : Env) (h : Nat) (s : Option String)
    (hok : startScriptOkB env s = true) (w : World) (st : LuaState)
    (hf : w.find h = some st) :
    (runStartScript env h s w).1.find h
      = some { st with loaded := st.loaded ++ scriptLoaded env s } := by
  cases s with
  | none => simpa [runStartScript, scriptLoaded] using hf
  | some script =>
    by_cases hr : env.readable script
    · have hd : env.doFileOk script = true := by
        simpa [startScriptOkB, hr] using hok
      simpa [runStartScript, hr, hd, scriptLoaded] using hf
    · have hq : env.requireOk script = true := by
        simpa [startScriptOkB, hr] using hok
      simp [runStartScript, hr, hq, scriptLoaded, requireIn,
        find_updateState_self, hf]

theorem runStartScript_err (env : Env) (s : Option String)
    (hok : startScriptOkB env s = true) (h : Nat) (w : World) :
    (runStartScript env h s w).2.2 = none := by
  cases s with
  | none => rfl
  | some script =>
    by_cases hr : env.readable script
    · have hd : env.doFileOk script = true := by
        simpa [startScriptOkB, hr] using hok
      simp [runStartScript, hr, hd]
    · have hq : env.requireOk script = true := by
        simpa [startScriptOkB, hr] using hok
      simp [runStartScript, hr, hq]

theorem runStartScript_trace (env : Env) (s : Option String)
    (hok : startScriptOkB env s = true) (h : Nat) (w : World) :
    (runStartScript env h s w).2.1 = scriptTrace env h s := by
  cases s with
  | none => rfl
  | some script =>
    by_cases hr : env.readable script
    · have hd : env.doFileOk script = true := by
        simpa [startScriptOkB, hr] using hok
      simp [runStartScript, scriptTrace, hr, hd]
    · have hq : env.requireOk script = true := by
        simpa [startScriptOkB, hr] using hok
      simp [runStartScript, scriptTrace, hr, hq]

theorem runStartScript_frame (env : Env) (h : Nat) (s : Option String)
    (w : World) (h' : Nat) (hne : h' ≠ h) :
    (runStartScript env h s w).1.find h' = w.find h' := by
  cases s with
  | none => rfl
  | some script =>
    by_cases hr : env.readable script
    · by_cases hd : env.doFileOk script <;> simp [runStartScript, hr, hd]
    · by_cases hq : env.requireOk script <;>
        simp [runStartScript, hr, hq, requireIn,
          find_updateState_ne _ _ _ _ hne]

/-! ### Characterization of init_state -/

theorem init_state_ok (env : Env) (ctx : LuaContext) (w : World)
    (hok : initSucceeds env ctx) (hfresh : w.isOpen w.nextId = false) :
    (init_state env ctx w).newState = Except.ok w.nextId ∧
    (init_state env ctx w).world.find w.nextId = some (initFinalState env ctx) ∧
    (init_state env ctx w).trace = initTraceOk env ctx w.nextId := by
  obtain ⟨hreq, hinitw, hscript⟩ := hok
  have h0 := newStateWithTraceback_find ctx.enable_tracebacks w hfresh
  have hA := addPackagePaths_find w.nextId ctx.package_dirs _ _ h0
  have hB := addCPackagePaths_find w.nextId ctx.cpackage_dirs _ _ hA
  have hC := requirePkgs_find env w.nextId ctx.packages hreq _ _ hB
  have hD := replayGlobals_find w.nextId ctx.bindingEntries _ _ hC
  have hE := runStartScript_find env w.nextId ctx.start_script hscript _ _ hD
  refine ⟨?_, ?_, ?_⟩
  · simp only [init_state, newStateWithTraceback_handle,
      requirePkgs_err env ctx.packages hreq,
      runLuaInits_ok ctx.watchers hinitw, destroyContext_wrapper,
      runStartScript_err env ctx.start_script hscript]
  · simp only [init_state, newStateWithTraceback_handle,
      requirePkgs_err env ctx.packages hreq,
      runLuaInits_ok ctx.watchers hinitw, destroyContext_wrapper,
      runStartScript_err env ctx.start_script hscript]
    rw [hE]
    simp [initFinalState, emptyLuaState]
  · simp only [init_state, newStateWithTraceback_handle,
      requirePkgs_err env ctx.packages hreq,
      runLuaInits_ok ctx.watchers hinitw, destroyContext_wrapper,
      runStartScript_err env ctx.start_script hscript]
    simp [addPackagePaths_trace, addCPackagePaths_trace,
      requirePkgs_trace env ctx.packages hreq, replayGlobals_trace,
      runStartScript_trace env ctx.start_script hscript, initTraceOk]

theorem init_state_frame (env : Env) (ctx : LuaContext) (w : World) (h' : Nat)
    (hne : h' ≠ w.nextId) :
    (init_state env ctx w).world.find h' = w.find h' := by
  have h0 := newStateWithTraceback_frame ctx.enable_tracebacks w h' hne
  have hAF : ∀ W, (addPackagePaths w.nextId ctx.package_dirs W).1.find h'
      = W.find h' := fun W =>
    addPackagePaths_frame w.nextId ctx.package_dirs W h' hne
  have hBF : ∀ W, (addCPackagePaths w.nextId ctx.cpackage_dirs W).1.find h'
      = W.find h' := fun W =>
    addCPackagePaths_frame w.nextId ctx.cpackage_dirs W h' hne
  have hCF : ∀ W, (requirePkgs env w.nextId ctx.packages W).1.find h'
      = W.find h' := fun W =>
    requirePkgs_frame env w.nextId ctx.packages W h' hne
  have hDF : ∀ W, (replayGlobals w.nextId ctx.bindingEntries W).1.find h'
      = W.find h' := fun W =>
    replayGlobals_frame w.nextId ctx.bindingEntries W h' hne
  have hEF : ∀ W, (runStartScript env w.nextId ctx.start_script W).1.find h'
      = W.find h' := fun W =>
    runStartScript_frame env w.nextId ctx.start_script W h' hne
  have hClose : ∀ W, (luaClose W w.nextId).find h' = W.find h' := fun W =>
    find_luaClose_ne W w.nextId h' hne
  simp only [init_state, newStateWithTraceback_handle]
  split
  · simp [hCF, hBF, hAF, h0]
  · split
    · simp [hClose, destroyContext_wrapper, runLuaInits_world, hDF, hCF, hBF,
        hAF, h0]
    · split <;>
        simp [hEF, destroyContext_wrapper, runLuaInits_world, hDF, hCF, hBF,
          hAF, h0]

/-! ### Trace shape on all paths (success or throw) -/

theorem requirePkgs_trace_events (env : Env) (h : Nat) (pkgs : List String)
    (w : World) :
    ∀ e ∈ (requirePkgs env h pkgs w).2.1, ∃ p, e = Event.requirePackage h p := by
  induction pkgs generalizing w with
  | nil => simp [requirePkgs]
  | cons p rest ih =>
    by_cases hp : env.requireOk p
    · intro e he
      simp only [requirePkgs, hp, if_true] at he
      rcases List.mem_cons.mp he with rfl | he2
      · exact ⟨p, rfl⟩
      · exact ih _ e he2
    · intro e he
      simp [requirePkgs, hp] at he

theorem runLuaInits_trace_events (ws : List Watcher) (w : World) :
    ∀ e ∈ (runLuaInits ws w).2.1, ∃ i, e = Event.luaInitCall i := by
  induction ws generalizing w with
  | nil => simp [runLuaInits]
  | cons wt rest ih =>
    by_cases hw : wt.initThrows
    · intro e he
      simp only [runLuaInits, hw, if_true, List.mem_singleton] at he
      exact ⟨wt.wid, he⟩
    · intro e he
      simp only [runLuaInits, hw, if_false] at he
      rcases List.mem_cons.mp he with rfl | he2
      · exact ⟨wt.wid, rfl⟩
      · exact ih _ e he2

theorem runStartScript_trace_events (env : Env) (h : Nat) (s : Option String)
    (w : World) :
    ∀ e ∈ (runStartScript env h s w).2.1,
      (∃ p, e = Event.doFileEvent h p) ∨ (∃ p, e = Event.requirePackage h p) := by
  cases s with
  | none => simp [runStartScript]
  | some script =>
    by_cases hr : env.readable script
    · by_cases hd : env.doFileOk script <;> intro e he <;>
        simp [runStartScript, hr, hd] at he
      exact Or.inl ⟨script, he⟩
    · by_cases hq : env.requireOk script <;> intro e he <;>
        simp [runStartScript, hr, hq] at he
      exact Or.inr ⟨script, he⟩

/-- Auxiliary: no watcher finalize/restarted event in a phase trace. -/
theorem addPackagePaths_all_nofin (h : Nat) (dirs : List String) (w : World) :
    ((addPackagePaths h dirs w).2.all
      (fun e => !e.isFinalizeOrRestarted)) = true := by
  rw [addPackagePaths_trace]
  simp only [List.all_eq_true]
  intro e he
  rcases List.mem_map.mp he with ⟨d, _, rfl⟩
  rfl

theorem addCPackagePaths_all_nofin (h : Nat) (dirs : List String) (w : World) :
    ((addCPackagePaths h dirs w).2.all
      (fun e => !e.isFinalizeOrRestarted)) = true := by
  rw [addCPackagePaths_trace]
  simp only [List.all_eq_true]
  intro e he
  rcases List.mem_map.mp he with ⟨d, _, rfl⟩
  rfl

theorem requirePkgs_all_nofin (env : Env) (h : Nat) (pkgs : List String)
    (w : World) :
    ((requirePkgs env h pkgs w).2.1.all
      (fun e => !e.isFinalizeOrRestarted)) = true := by
  simp only [List.all_eq_true]
  intro e he
  rcases requirePkgs_trace_events env h pkgs w e he with ⟨p, rfl⟩
  rfl

theorem replayGlobals_all_nofin (h : Nat) (entries : List (String × LuaVal))
    (w : World) :
    ((replayGlobals h entries w).2.all
      (fun e => !e.isFinalizeOrRestarted)) = true := by
  rw [replayGlobals_trace]
  simp only [List.all_eq_true]
  intro e he
  rcases List.mem_map.mp he with ⟨⟨n, v⟩, _, rfl⟩
  rfl

theorem runLuaInits_all_nofin (ws : List Watcher) (w : World) :
    ((runLuaInits ws w).2.1.all
      (fun e => !e.isFinalizeOrRestarted)) = true := by
  simp only [List.all_eq_true]
  intro e he
  rcases runLuaInits_trace_events ws w e he with ⟨i, rfl⟩
  rfl

theorem runStartScript_all_nofin (env : Env) (h : Nat) (s : Option String)
    (w : World) :
    ((runStartScript env h s w).2.1.all
      (fun e => !e.isFinalizeOrRestarted)) = true := by
  simp only [List.all_eq_true]
  intro e he
  rcases runStartScript_trace_events env h s w e he with ⟨p, rfl⟩ | ⟨p, rfl⟩ <;>
    rfl

/-- On every path, successful or throwing, `init_state` never emits a
watcher `lua_finalize` or `lua_restarted` notification. -/
theorem init_state_no_finalize (env : Env) (ctx : LuaContext) (w : World) :
    ∀ e ∈ (init_state env ctx w).trace, e.isFinalizeOrRestarted = false := by
  have hall : ((init_state env ctx w).trace.all
      (fun e => !e.isFinalizeOrRestarted)) = true := by
    simp only [init_state, newStateWithTraceback_handle]
    split
    · simp only [List.all_append, Bool.and_eq_true]
      repeat' apply And.intro
      all_goals
        first
          | exact addPackagePaths_all_nofin _ _ _
          | exact addCPackagePaths_all_nofin _ _ _
          | exact requirePkgs_all_nofin _ _ _ _
    · split
      · simp only [destroyContext_wrapper, List.append_nil, List.all_append,
          Bool.and_eq_true]
        repeat' apply And.intro
        all_goals
          first
            | exact addPackagePaths_all_nofin _ _ _
            | exact addCPackagePaths_all_nofin _ _ _
            | exact requirePkgs_all_nofin _ _ _ _
            | exact replayGlobals_all_nofin _ _ _
            | exact runLuaInits_all_nofin _ _
            | rfl
      · split <;>
        · simp only [destroyContext_wrapper, List.append_nil, List.all_append,
            Bool.and_eq_true]
          repeat' apply And.intro
          all_goals
            first
              | exact addPackagePaths_all_nofin _ _ _
              | exact addCPackagePaths_all_nofin _ _ _
              | exact requirePkgs_all_nofin _ _ _ _
              | exact replayGlobals_all_nofin _ _ _
              | exact runLuaInits_all_nofin _ _
              | exact runStartScript_all_nofin _ _ _ _
  intro e he
  have hb := List.all_eq_true.mp hall e he
  simpa using hb

/-! ### Lookup after replay -/

theorem alFind_insertAll_not_mem (g : List (String × LuaVal))
    (entries : List (String × LuaVal)) (n : String)
    (hn : n ∉ alKeys entries) :
    alFind (insertAll g entries) n = alFind g n := by
  induction entries generalizing g with
  | nil => rfl
  | cons e rest ih =>
    obtain ⟨k, v⟩ := e
    have hk : n ≠ k := by
      intro hc
      exact hn (by simp [alKeys, hc])
    have hrest : n ∉ alKeys rest := by
      intro hc
      exact hn (by simp [alKeys] at hc ⊢; exact Or.inr hc)
    rw [show insertAll g ((k, v) :: rest) = insertAll (alInsert g k v) rest
      from rfl, ih (alInsert g k v) hrest]
    exact alFind_alInsert_ne g k n v hk

theorem alFind_insertAll_mem (g : List (String × LuaVal))
    (entries : List (String × LuaVal)) (n : String) (v : LuaVal)
    (hnd : (alKeys entries).Nodup) (hmem : (n, v) ∈ entries) :
    alFind (insertAll g entries) n = some v := by
  induction entries generalizing g with
  | nil => cases hmem
  | cons e rest ih =>
    obtain ⟨k, u⟩ := e
    have hnd2 : (alKeys rest).Nodup := by
      simpa [alKeys] using hnd.of_cons
    rcases List.mem_cons.mp hmem with heq | hmem2
    · obtain ⟨h1, h2⟩ := Prod.ext_iff.mp heq
      cases h1
      cases h2
      have hkn : n ∉ alKeys rest := by
        have hcons : (n :: alKeys rest).Nodup := by simpa [alKeys] using hnd
        exact (List.nodup_cons.mp hcons).1
      rw [show insertAll g ((n, v) :: rest) = insertAll (alInsert g n v) rest
        from rfl, alFind_insertAll_not_mem (alInsert g n v) rest n hkn]
      exact alFind_alInsert_self g n v
    · exact ih (alInsert g k u) hnd2 hmem2

/-! ### Membership of the per-kind maps in the concatenated entries -/

theorem mem_bindingEntries_usertype (ctx : LuaContext) (n : String) (d : Ptr)
    (t : String) (hm : (n, (d, t)) ∈ ctx.usertypes) :
    (n, LuaVal.usertype d t) ∈ ctx.bindingEntries := by
  simp only [LuaContext.bindingEntries, List.mem_append]
  refine Or.inl (Or.inl (Or.inl (Or.inl (Or.inl ?_))))
  simp only [LuaContext.entriesOf, List.mem_map]
  exact ⟨(n, (d, t)), hm, rfl⟩

theorem mem_bindingEntries_string (ctx : LuaContext) (n s : String)
    (hm : (n, s) ∈ ctx.strings) :
    (n, LuaVal.str s) ∈ ctx.bindingEntries := by
  simp only [LuaContext.bindingEntries, List.mem_append]
  refine Or.inl (Or.inl (Or.inl (Or.inl (Or.inr ?_))))
  simp only [LuaContext.entriesOf, List.mem_map]
  exact ⟨(n, s), hm, rfl⟩

theorem mem_bindingEntries_boolean (ctx : LuaContext) (n : String) (b : Bool)
    (hm : (n, b) ∈ ctx.booleans) :
    (n, LuaVal.boolean b) ∈ ctx.bindingEntries := by
  simp only [LuaContext.bindingEntries, List.mem_append]
  refine Or.inl (Or.inl (Or.inl (Or.inr ?_)))
  simp only [LuaContext.entriesOf, List.mem_map]
  exact ⟨(n, b), hm, rfl⟩

theorem mem_bindingEntries_number (ctx : LuaContext) (n : String)
    (x : LuaNumber) (hm : (n, x) ∈ ctx.numbers) :
    (n, LuaVal.number x) ∈ ctx.bindingEntries := by
  simp only [LuaContext.bindingEntries, List.mem_append]
  refine Or.inl (Or.inl (Or.inr ?_))
  simp only [LuaContext.entriesOf, List.mem_map]
  exact ⟨(n, x), hm, rfl⟩

theorem mem_bindingEntries_integer (ctx : LuaContext) (n : String) (i : Int)
    (hm : (n, i) ∈ ctx.integers) :
    (n, LuaVal.integer i) ∈ ctx.bindingEntries := by
  simp only [LuaContext.bindingEntries, List.mem_append]
  refine Or.inl (Or.inr ?_)
  simp only [LuaContext.entriesOf, List.mem_map]
  exact ⟨(n, i), hm, rfl⟩

theorem mem_bindingEntries_cfunction (ctx : LuaContext) (n : String) (f : CFun)
    (hm : (n, f) ∈ ctx.cfunctions) :
    (n, LuaVal.cfunction f) ∈ ctx.bindingEntries := by
  simp only [LuaContext.bindingEntries, List.mem_append]
  refine Or.inr ?_
  simp only [LuaContext.entriesOf, List.mem_map]
  exact ⟨(n, f), hm, rfl⟩

/-! ### restart on the success path -/

theorem restart_ok (env : Env) (ctx : LuaContext) (w : World)
    (hok : initSucceeds env ctx) (hfresh : w.isOpen w.nextId = false) :
    restart env ctx w =
      { ctx := { ctx with lState := w.nextId },
        world := luaClose (init_state env ctx w).world ctx.lState,
        trace := initTraceOk env ctx w.nextId
          ++ ctx.watchers.map (fun wt => Event.luaFinalizeCall wt.wid)
          ++ [Event.swapStates ctx.lState w.nextId,
              Event.closeState ctx.lState]
          ++ ctx.watchers.map (fun wt => Event.luaRestartedCall wt.wid) } := by
  have h1 := init_state_ok env ctx w hok hfresh
  simp [restart, h1.1, h1.2.2]

/-! ### init_state failure inside the lua_init loop closes the new state -/

theorem init_state_luaInit_throw (env : Env) (ctx : LuaContext) (w : World)
    (hreq : ∀ p ∈ ctx.packages, env.requireOk p = true)
    (hthrow : ∃ wt ∈ ctx.watchers, wt.initThrows = true) :
    (init_state env ctx w).world.isOpen w.nextId = false ∧
    ∃ msg, (init_state env ctx w).newState = Except.error msg := by
  simp only [init_state, newStateWithTraceback_handle,
    requirePkgs_err env ctx.packages hreq]
  split
  · rename_i e heq
    refine ⟨?_, ⟨e, rfl⟩⟩
    simp [destroyContext_wrapper, isOpen_luaClose_self]
  · rename_i heq
    exfalso
    have hth := runLuaInits_throws ctx.watchers
      (replayGlobals w.nextId ctx.bindingEntries
        (requirePkgs env w.nextId ctx.packages
          (addCPackagePaths w.nextId ctx.cpackage_dirs
            (addPackagePaths w.nextId ctx.package_dirs
              (newStateWithTraceback ctx.enable_tracebacks w).1).1).1).1).1 hthrow
    rw [heq] at hth
    simp at hth

/-! ### Per-kind map machinery -/

theorem alFind_entry_map {α : Type} (m : List (String × α)) (f : α → LuaVal)
    (n : String) :
    alFind (m.map (fun p => (p.1, f p.2))) n = (alFind m n).map f := by
  induction m with
  | nil => rfl
  | cons p rest ih =>
    by_cases h : p.1 = n
    · simp [alFind, h]
    · simp [alFind, h, ih]

theorem alFind_usertype_entries (m : List (String × (Ptr × String)))
    (n : String) :
    alFind (m.map (fun p => (p.1, LuaVal.usertype p.2.1 p.2.2))) n
      = (alFind m n).map (fun q => LuaVal.usertype q.1 q.2) := by
  induction m with
  | nil => rfl
  | cons p rest ih =>
    by_cases h : p.1 = n
    · simp [alFind, h]
    · simp [alFind, h, ih]

theorem typeStr_injective (k1 k2 : Kind) (hne : k1 ≠ k2) :
    k1.typeStr ≠ k2.typeStr := by
  cases k1 <;> cases k2 <;> simp_all [Kind.typeStr]

/-- If some map of a kind other than `ty` records the name,
`assert_unique_name` throws. -/
theorem assert_unique_name_conflict (ctx : LuaContext) (name : String)
    (ty : String) (k2 : Kind) (hne : ty ≠ k2.typeStr)
    (hc : kindContains ctx k2 name = true) :
    ∃ e, assert_unique_name ctx name ty = some e := by
  cases k2 <;>
    simp only [Kind.typeStr] at hne <;>
    simp only [kindContains] at hc <;>
    · simp only [assert_unique_name]
      split_ifs <;>
        first
          | exact ⟨_, rfl⟩
          | (exfalso; simp_all [bne_iff_ne, Bool.and_eq_true])

/-- If no map of a kind other than `k1` records the name,
`assert_unique_name` passes. -/
theorem assert_unique_name_pass (ctx : LuaContext) (name : String) (k1 : Kind)
    (hother : ∀ k', k' ≠ k1 → kindContains ctx k' name = false) :
    assert_unique_name ctx name k1.typeStr = none := by
  cases k1 with
  | usertype =>
    have h2 := hother .string (by decide)
    have h3 := hother .boolean (by decide)
    have h4 := hother .number (by decide)
    have h5 := hother .integer (by decide)
    have h6 := hother .cfunction (by decide)
    simp only [kindContains] at h2 h3 h4 h5 h6
    simp [assert_unique_name, Kind.typeStr, h2, h3, h4, h5, h6]
  | string =>
    have h1 := hother .usertype (by decide)
    have h3 := hother .boolean (by decide)
    have h4 := hother .number (by decide)
    have h5 := hother .integer (by decide)
    have h6 := hother .cfunction (by decide)
    simp only [kindContains] at h1 h3 h4 h5 h6
    simp [assert_unique_name, Kind.typeStr, h1, h3, h4, h5, h6]
  | boolean =>
    have h1 := hother .usertype (by decide)
    have h2 := hother .string (by decide)
    have h4 := hother .number (by decide)
    have h5 := hother .integer (by decide)
    have h6 := hother .cfunction (by decide)
    simp only [kindContains] at h1 h2 h4 h5 h6
    simp [assert_unique_name, Kind.typeStr, h1, h2, h4, h5, h6]
  | number =>
    have h1 := hother .usertype (by decide)
    have h2 := hother .string (by decide)
    have h3 := hother .boolean (by decide)
    have h5 := hother .integer (by decide)
    have h6 := hother .cfunction (by decide)
    simp only [kindContains] at h1 h2 h3 h5 h6
    simp [assert_unique_name, Kind.typeStr, h1, h2, h3, h5, h6]
  | integer =>
    have h1 := hother .usertype (by decide)
    have h2 := hother .string (by decide)
    have h3 := hother .boolean (by decide)
    have h4 := hother .number (by decide)
    have h6 := hother .cfunction (by decide)
    simp only [kindContains] at h1 h2 h3 h4 h6
    simp [assert_unique_name, Kind.typeStr, h1, h2, h3, h4, h6]
  | cfunction =>
    have h1 := hother .usertype (by decide)
    have h2 := hother .string (by decide)
    have h3 := hother .boolean (by decide)
    have h4 := hother .number (by decide)
    have h5 := hother .integer (by decide)
    simp only [kindContains] at h1 h2 h3 h4 h5
    simp [assert_unique_name, Kind.typeStr, h1, h2, h3, h4, h5]

/-! ### Constructor projections -/

theorem newLuaContext_fam (env : Env) (wd tb : Bool) (w : World) :
    (newLuaContext env wd tb w).1.fam
      = (if wd then
          some { filters := [luaFileFilter], watchedDirs := [],
                 watchedFiles := [], hasListener := true }
         else none) := by
  simp only [newLuaContext]
  split <;> rfl

theorem newLuaContext_owns (env : Env) (wd tb : Bool) (w : World) :
    (newLuaContext env wd tb w).1.owns_L = true := by
  simp only [newLuaContext]
  split <;> rfl

/-! ### Claims -/

/-- C5: for every `set_usertype` / `set_string` / `set_boolean` /
`set_number` / `set_integer` / `set_cfunction` call that does not throw
(i.e. whose `assert_unique_name` check passes), the value is both set as
the Lua global of that name in the current interpreter state and recorded
in the corresponding internal map under that name, so the binding is
immediately visible to scripts and preserved across `restart()`. -/
theorem claim_C5 (k : Kind) (ctx : LuaContext) (name : String) (v : KindVal k)
    (w : World) (st : LuaState)
    (huniq : assert_unique_name ctx name k.typeStr = none)
    (hst : w.find ctx.lState = some st) :
    (set_of_kind k ctx name v w).1 = none ∧
    alFind (LuaContext.entriesOf (set_of_kind k ctx name v w).2.1 k) name
      = some (encodeKind k v) ∧
    globalOf (set_of_kind k ctx name v w).2.2 ctx.lState name
      = some (encodeKind k v) := by
  have hglob : ∀ val : LuaVal,
      globalOf (setGlobalIn w ctx.lState name val) ctx.lState name
        = some val := by
    intro val
    simp only [globalOf, setGlobalIn]
    rw [find_updateState_self, hst]
    exact alFind_alInsert_self st.globals name val
  cases k with
  | usertype =>
    simp only [Kind.typeStr] at huniq
    refine ⟨?_, ?_, ?_⟩ <;>
      simp [set_of_kind, set_usertype, huniq, LuaContext.entriesOf,
        alFind_usertype_entries, alFind_alInsert_self, encodeKind, hglob]
  | string =>
    simp only [Kind.typeStr] at huniq
    refine ⟨?_, ?_, ?_⟩ <;>
      simp [set_of_kind, set_string, huniq, LuaContext.entriesOf,
        alFind_entry_map, alFind_alInsert_self, encodeKind, hglob]
  | boolean =>
    simp only [Kind.typeStr] at huniq
    refine ⟨?_, ?_, ?_⟩ <;>
      simp [set_of_kind, set_boolean, huniq, LuaContext.entriesOf,
        alFind_entry_map, alFind_alInsert_self, encodeKind, hglob]
  | number =>
    simp only [Kind.typeStr] at huniq
    refine ⟨?_, ?_, ?_⟩ <;>
      simp [set_of_kind, set_number, huniq, LuaContext.entriesOf,
        alFind_entry_map, alFind_alInsert_self, encodeKind, hglob]
  | integer =>
    simp only [Kind.typeStr] at huniq
    refine ⟨?_, ?_, ?_⟩ <;>
      simp [set_of_kind, set_integer, huniq, LuaContext.entriesOf,
        alFind_entry_map, alFind_alInsert_self, encodeKind, hglob]
  | cfunction =>
    simp only [Kind.typeStr] at huniq
    refine ⟨?_, ?_, ?_⟩ <;>
      simp [set_of_kind, set_cfunction, huniq, LuaContext.entriesOf,
        alFind_entry_map, alFind_alInsert_self, encodeKind, hglob]

/-- Witness for C5: setting the string `greeting` on a fresh context passes
the uniqueness check and makes the global visible with the set value. -/
theorem claim_C5_witness :
    (assert_unique_name ctxBase ("greeting") Kind.string.typeStr = none ∧
     wOne.find ctxBase.lState = some emptyLuaState) ∧
    globalOf (set_of_kind .string ctxBase ("greeting") ("hi") wOne).2.2
      ctxBase.lState ("greeting") = some (LuaVal.str ("hi")) :=
  ⟨⟨by decide, by decide⟩,
   (claim_C5 .string ctxBase ("greeting") ("hi") wOne emptyLuaState
     (by decide) (by decide)).2.2⟩

/-- C8: a `set_*` call of kind `k1` on a name recorded in an internal map
of a different kind `k2` throws before modifying any internal map or Lua
global (the context and world are returned unchanged), while a `set_*`
call on a name recorded only in the map of the same kind succeeds and
overwrites the previous value. -/
theorem claim_C8 (k1 k2 : Kind) (ctx : LuaContext) (name : String)
    (v : KindVal k1) (w : World) :
    (k1 ≠ k2 → kindContains ctx k2 name = true →
      ∃ e, set_of_kind k1 ctx name v w = (some e, ctx, w)) ∧
    (kindContains ctx k1 name = true →
      (∀ k', k' ≠ k1 → kindContains ctx k' name = false) →
      (set_of_kind k1 ctx name v w).1 = none ∧
      alFind (LuaContext.entriesOf (set_of_kind k1 ctx name v w).2.1 k1) name
        = some (encodeKind k1 v)) := by
  constructor
  · intro hne hc
    obtain ⟨e, he⟩ := assert_unique_name_conflict ctx name k1.typeStr k2
      (typeStr_injective k1 k2 hne) hc
    cases k1 <;>
      · simp only [Kind.typeStr] at he
        exact ⟨e, by simp [set_of_kind, set_usertype, set_string, set_boolean,
          set_number, set_integer, set_cfunction, he]⟩
  · intro _ hother
    have hpass := assert_unique_name_pass ctx name k1 hother
    cases k1 <;>
      · simp only [Kind.typeStr] at hpass
        refine ⟨?_, ?_⟩ <;>
          simp [set_of_kind, set_usertype, set_string, set_boolean,
            set_number, set_integer, set_cfunction, hpass,
            LuaContext.entriesOf, alFind_entry_map, alFind_usertype_entries,
            alFind_alInsert_self, encodeKind]

/-- Witness for C8: on a context holding the boolean `flag`, `set_string`
of `flag` throws with the context unchanged, while `set_string` of the
recorded string `greeting` succeeds and overwrites its value. -/
theorem claim_C8_witness :
    (Kind.string ≠ Kind.boolean ∧
     kindContains ctxBindings .boolean ("flag") = true ∧
     kindContains ctxBindings .string ("greeting") = true ∧
     (∀ k', k' ≠ Kind.string →
        kindContains ctxBindings k' ("greeting") = false)) ∧
    (∃ e, set_of_kind .string ctxBindings ("flag") ("oops") wOne
        = (some e, ctxBindings, wOne)) ∧
    alFind (LuaContext.entriesOf
        (set_of_kind .string ctxBindings ("greeting") ("bye") wOne).2.1
        .string) ("greeting")
      = some (encodeKind .string ("bye")) :=
  ⟨⟨by decide, by decide, by decide,
    by intro k' hk; cases k' <;> first | exact absurd rfl hk | decide⟩,
   (claim_C8 .string .boolean ctxBindings ("flag") ("oops") wOne).1
     (by decide) (by decide),
   ((claim_C8 .string .boolean ctxBindings ("greeting") ("bye") wOne).2
     (by decide)
     (by intro k' hk; cases k' <;> first | exact absurd rfl hk | decide)).2⟩

/-- C9: with tracebacks enabled, the traceback function at stack index 1
is protected: `pop(n)` with `n >= stack_size()` throws a
`LuaRuntimeException` returning the world unchanged, and `remove(idx)`
with `idx == 1` or `idx == -stack_size()` throws likewise with the world
unchanged. -/
theorem claim_C9 (ctx : LuaContext) (n idx : Int) (w : World)
    (htb : ctx.enable_tracebacks = true) :
    (ctx.stack_size w ≤ n →
      ctx.pop n w = (some ("Cannot pop traceback function, invalid n"), w)) ∧
    ((idx = 1 ∨ idx = -(ctx.stack_size w)) →
      ctx.remove idx w = (some ("Cannot remove traceback function"), w)) := by
  constructor
  · intro hle
    simp [LuaContext.pop, htb, hle]
  · intro hor
    rcases hor with h1 | h2
    · simp [LuaContext.remove, htb, h1]
    · simp [LuaContext.remove, htb, h2]

/-- Witness for C9: on the empty stack, `pop(0)` (with `0 >= stack_size`)
and `remove(1)` both throw without altering the world. -/
theorem claim_C9_witness :
    (ctxBase.enable_tracebacks = true ∧ ctxBase.stack_size wOne ≤ 0) ∧
    ctxBase.pop 0 wOne
      = (some ("Cannot pop traceback function, invalid n"), wOne) ∧
    ctxBase.remove 1 wOne
      = (some ("Cannot remove traceback function"), wOne) :=
  ⟨⟨by decide, by decide⟩,
   (claim_C9 ctxBase 0 1 wOne (by decide)).1 (by decide),
   (claim_C9 ctxBase 0 1 wOne (by decide)).2 (Or.inl rfl)⟩

/-- C7: a default-constructed context owns its state — its destructor
notifies every watcher via `lua_finalize` and closes the state (leaving
other states untouched) — while a wrapper context does not own the wrapped
state and its destructor neither closes it nor notifies watchers. -/
theorem claim_C7 (env : Env) (wd tb : Bool) (L : Nat) (ctx : LuaContext)
    (w w2 : World) (howns : ctx.owns_L = true) :
    ((wrapLuaContext L).owns_L = false ∧
     destroyContext (wrapLuaContext L) w = (w, []) ∧
     (newLuaContext env wd tb w2).1.owns_L = true) ∧
    ((destroyContext ctx w).2
        = ctx.watchers.map (fun wt => Event.luaFinalizeCall wt.wid)
          ++ [Event.closeState ctx.lState] ∧
     (destroyContext ctx w).1.isOpen ctx.lState = false ∧
     ∀ h', h' ≠ ctx.lState → (destroyContext ctx w).1.find h' = w.find h') := by
  refine ⟨⟨rfl, destroyContext_wrapper L w, newLuaContext_owns env wd tb w2⟩,
    ?_, ?_, ?_⟩
  · simp [destroyContext, howns]
  · simp [destroyContext, howns, isOpen_luaClose_self]
  · intro h' hne
    simp [destroyContext, howns, find_luaClose_ne _ _ _ hne]

/-- Witness for C7: destroying a wrapper around state 5 changes nothing,
while destroying an owning context with two watchers notifies both and
closes its state. -/
theorem claim_C7_witness :
    ctxWatched.owns_L = true ∧
    destroyContext (wrapLuaContext 5) wOne = (wOne, []) ∧
    (destroyContext ctxWatched wOne).1.isOpen 0 = false ∧
    (destroyContext ctxWatched wOne).2
      = [Event.luaFinalizeCall 10, Event.luaFinalizeCall 11,
         Event.closeState 0] :=
  ⟨by decide,
   (claim_C7 envAllOk true true 5 ctxWatched wOne wOne (by decide)).1.2.1,
   (claim_C7 envAllOk true true 5 ctxWatched wOne wOne (by decide)).2.2.1,
   (claim_C7 envAllOk true true 5 ctxWatched wOne wOne (by decide)).2.1⟩

/-- C10: `add_package` is idempotent — adding a recorded package neither
requires it again nor appends a duplicate, the recorded package list stays
duplicate-free, and during state initialization each recorded package is
required exactly once. -/
theorem claim_C10 (env : Env) (ctx : LuaContext) (p : String) (w : World)
    (hok : initSucceeds env ctx) (hfresh : w.isOpen w.nextId = false)
    (hnd : ctx.packages.Nodup) (hmem : p ∈ ctx.packages)
    (hscript : ctx.start_script ≠ some p) :
    add_package env ctx p w = (none, ctx, w, []) ∧
    (∀ q, (add_package env ctx q w).2.1.packages.Nodup) ∧
    (init_state env ctx w).trace.count (Event.requirePackage w.nextId p)
      = 1 := by
  refine ⟨?_, ?_, ?_⟩
  · simp [add_package, hmem]
  · intro q
    by_cases hq : q ∈ ctx.packages
    · simp [add_package, hq, hnd]
    · by_cases hr : env.requireOk q
      · simp [add_package, hq, hr, List.nodup_append, hnd]
      · simp [add_package, hq, hr, hnd]
  · have htr := (init_state_ok env ctx w hok hfresh).2.2
    rw [htr]
    simp only [initTraceOk, List.count_append]
    have h1 : (ctx.package_dirs.map (Event.addPackagePath w.nextId)).count
        (Event.requirePackage w.nextId p) = 0 := by
      rw [List.count_eq_zero]
      intro hmem2
      rcases List.mem_map.mp hmem2 with ⟨d, _, heq⟩
      exact Event.noConfusion heq
    have h2 : (ctx.cpackage_dirs.map (Event.addCPackagePath w.nextId)).count
        (Event.requirePackage w.nextId p) = 0 := by
      rw [List.count_eq_zero]
      intro hmem2
      rcases List.mem_map.mp hmem2 with ⟨d, _, heq⟩
      exact Event.noConfusion heq
    have h3 : (ctx.packages.map (Event.requirePackage w.nextId)).count
        (Event.requirePackage w.nextId p) = 1 := by
      have hinj : Function.Injective (Event.requirePackage w.nextId) := by
        intro a b hab
        injection hab
      rw [List.count_map_of_injective ctx.packages _ hinj]
      exact List.count_eq_one_of_mem hnd hmem
    have h4 : (ctx.bindingEntries.map
        (fun q => Event.setGlobalVar w.nextId q.1 q.2)).count
        (Event.requirePackage w.nextId p) = 0 := by
      rw [List.count_eq_zero]
      intro hmem2
      rcases List.mem_map.mp hmem2 with ⟨q, _, heq⟩
      exact Event.noConfusion heq
    have h5 : (ctx.watchers.map (fun wt => Event.luaInitCall wt.wid)).count
        (Event.requirePackage w.nextId p) = 0 := by
      rw [List.count_eq_zero]
      intro hmem2
      rcases List.mem_map.mp hmem2 with ⟨wt, _, heq⟩
      exact Event.noConfusion heq
    have h6 : (scriptTrace env w.nextId ctx.start_script).count
        (Event.requirePackage w.nextId p) = 0 := by
      cases hs : ctx.start_script with
      | none => simp [scriptTrace]
      | some s =>
        have hsp : s ≠ p := by
          intro hcc
          exact hscript (by rw [hs, hcc])
        by_cases hr : env.readable s <;>
          simp [scriptTrace, hr, hsp, Ne.symm hsp]
    rw [h1, h2, h3, h4, h5, h6]

/-- Witness for C10: with two recorded packages, re-adding `alpha` is a
no-op and the initialization trace requires it exactly once. -/
theorem claim_C10_witness :
    (initSucceeds envRequireOnly ctxPackages ∧
     wOne.isOpen wOne.nextId = false ∧ ctxPackages.packages.Nodup ∧
     ("alpha") ∈ ctxPackages.packages ∧
     ctxPackages.start_script ≠ some ("alpha")) ∧
    add_package envRequireOnly ctxPackages ("alpha") wOne
      = (none, ctxPackages, wOne, []) ∧
    (init_state envRequireOnly ctxPackages wOne).trace.count
      (Event.requirePackage 1 ("alpha")) = 1 :=
  ⟨⟨⟨by decide, by decide, by decide⟩, by decide, by decide, by decide,
    by decide⟩,
   (claim_C10 envRequireOnly ctxPackages ("alpha") wOne
     ⟨by decide, by decide, by decide⟩ (by decide) (by decide) (by decide)
     (by decide)).1,
   (claim_C10 envRequireOnly ctxPackages ("alpha") wOne
     ⟨by decide, by decide, by decide⟩ (by decide) (by decide) (by decide)
     (by decide)).2.2⟩

/-- C1: after a successful `restart()`, every binding recorded via
`set_usertype` / `set_string` / `set_boolean` / `set_number` /
`set_integer` / `set_cfunction` is re-established as a global of the same
name and value in the fresh state, every recorded package and C package
directory is re-appended to the fresh state's `package.path` /
`package.cpath`, and every recorded package is required again. -/
theorem claim_C1 (env : Env) (ctx : LuaContext) (w : World)
    (hok : initSucceeds env ctx)
    (hnd : (alKeys ctx.bindingEntries).Nodup)
    (hfresh : w.isOpen w.nextId = false)
    (hcur : ctx.lState ≠ w.nextId) :
    (∀ n d t, (n, (d, t)) ∈ ctx.usertypes →
      globalOf (restart env ctx w).world (restart env ctx w).ctx.lState n
        = some (LuaVal.usertype d t)) ∧
    (∀ n s, (n, s) ∈ ctx.strings →
      globalOf (restart env ctx w).world (restart env ctx w).ctx.lState n
        = some (LuaVal.str s)) ∧
    (∀ n b, (n, b) ∈ ctx.booleans →
      globalOf (restart env ctx w).world (restart env ctx w).ctx.lState n
        = some (LuaVal.boolean b)) ∧
    (∀ n x, (n, x) ∈ ctx.numbers →
      globalOf (restart env ctx w).world (restart env ctx w).ctx.lState n
        = some (LuaVal.number x)) ∧
    (∀ n i, (n, i) ∈ ctx.integers →
      globalOf (restart env ctx w).world (restart env ctx w).ctx.lState n
        = some (LuaVal.integer i)) ∧
    (∀ n g, (n, g) ∈ ctx.cfunctions →
      globalOf (restart env ctx w).world (restart env ctx w).ctx.lState n
        = some (LuaVal.cfunction g)) ∧
    packagePathOf (restart env ctx w).world (restart env ctx w).ctx.lState
      = ctx.package_dirs ∧
    packageCPathOf (restart env ctx w).world (restart env ctx w).ctx.lState
      = ctx.cpackage_dirs ∧
    (∀ p ∈ ctx.packages,
      p ∈ loadedOf (restart env ctx w).world
        (restart env ctx w).ctx.lState) := by
  have hini := init_state_ok env ctx w hok hfresh
  have hres := restart_ok env ctx w hok hfresh
  have hfind : (restart env ctx w).world.find (restart env ctx w).ctx.lState
      = some (initFinalState env ctx) := by
    rw [hres]
    show (luaClose (init_state env ctx w).world ctx.lState).find w.nextId = _
    rw [find_luaClose_ne _ _ _ (Ne.symm hcur)]
    exact hini.2.1
  have hglobal : ∀ n v, (n, v) ∈ ctx.bindingEntries →
      globalOf (restart env ctx w).world (restart env ctx w).ctx.lState n
        = some v := by
    intro n v hm
    simp only [globalOf]
    rw [hfind]
    exact alFind_insertAll_mem [] ctx.bindingEntries n v hnd hm
  refine ⟨?_, ?_, ?_, ?_, ?_, ?_, ?_, ?_, ?_⟩
  · intro n d t hm
    exact hglobal n _ (mem_bindingEntries_usertype ctx n d t hm)
  · intro n s hm
    exact hglobal n _ (mem_bindingEntries_string ctx n s hm)
  · intro n b hm
    exact hglobal n _ (mem_bindingEntries_boolean ctx n b hm)
  · intro n x hm
    exact hglobal n _ (mem_bindingEntries_number ctx n x hm)
  · intro n i hm
    exact hglobal n _ (mem_bindingEntries_integer ctx n i hm)
  · intro n g hm
    exact hglobal n _ (mem_bindingEntries_cfunction ctx n g hm)
  · simp only [packagePathOf]
    rw [hfind]
    rfl
  · simp only [packageCPathOf]
    rw [hfind]
    rfl
  · intro p hp
    simp only [loadedOf]
    rw [hfind]
    exact List.mem_append_left _ hp

/-- Witness for C1: a context with a binding of every kind, a package and
package directories; after the restart the string binding is a global of
the new state, the package directory is in its `package.path`, and the
package is loaded. -/
theorem claim_C1_witness :
    ((∀ p ∈ ctxBindings.packages, envRequireOnly.requireOk p = true) ∧
     (alKeys ctxBindings.bindingEntries).Nodup ∧
     wOne.isOpen wOne.nextId = false ∧ ctxBindings.lState ≠ wOne.nextId) ∧
    globalOf (restart envRequireOnly ctxBindings wOne).world
      (restart envRequireOnly ctxBindings wOne).ctx.lState ("greeting")
      = some (LuaVal.str ("hi")) ∧
    packagePathOf (restart envRequireOnly ctxBindings wOne).world
      (restart envRequireOnly ctxBindings wOne).ctx.lState = ["/opt/lua"] ∧
    ("mod") ∈ loadedOf (restart envRequireOnly ctxBindings wOne).world
      (restart envRequireOnly ctxBindings wOne).ctx.lState :=
  ⟨⟨by decide, by decide, by decide, by decide⟩,
   (claim_C1 envRequireOnly ctxBindings wOne
     ⟨by decide, by decide, by decide⟩ (by decide) (by decide)
     (by decide)).2.1 ("greeting") ("hi") (by decide),
   (claim_C1 envRequireOnly ctxBindings wOne
     ⟨by decide, by decide, by decide⟩ (by decide) (by decide)
     (by decide)).2.2.2.2.2.2.1,
   (claim_C1 envRequireOnly ctxBindings wOne
     ⟨by decide, by decide, by decide⟩ (by decide) (by decide)
     (by decide)).2.2.2.2.2.2.2.2 ("mod") (by decide)⟩

/-- C2 counterexample: on a context whose recorded package fails to
require, `restart()` catches the exception and keeps the old state (the
context is unchanged), but the partially built new state — allocated
under handle 1 — is still open afterwards: `init_state` closes the new
state only on the watcher `lua_init` failure path, so the claim that the
partially built state is closed whenever initialization throws is false. -/
theorem claim_C2_counterexample :
    (init_state envAllFail ctxOnePkg wOne).newState
      = Except.error ("Lua runtime error requiring package foo") ∧
    (restart envAllFail ctxOnePkg wOne).ctx = ctxOnePkg ∧
    (restart envAllFail ctxOnePkg wOne).world.isOpen 1 = true :=
  ⟨by decide, by decide, by decide⟩

/-- C2 (amended): if creating or initializing the new state throws,
`restart()` catches the exception (it does not propagate), leaves the
context — in particular `__L` — unchanged, never invokes `lua_finalize`
or `lua_restarted`, and leaves the old state's content untouched; the
partially built new state is closed when the failure is a watcher's
`lua_init` callback throwing, but on the other failure paths (package
`require`, start script) it is leaked rather than closed. -/
theorem claim_C2 (env : Env) (ctx : LuaContext) (w : World) (msg : String)
    (herr : (init_state env ctx w).newState = Except.error msg) :
    (restart env ctx w).ctx = ctx ∧
    (∀ e ∈ (restart env ctx w).trace, e.isFinalizeOrRestarted = false) ∧
    (ctx.lState ≠ w.nextId →
      (restart env ctx w).world.find ctx.lState = w.find ctx.lState) ∧
    ((∀ p ∈ ctx.packages, env.requireOk p = true) →
      (∃ wt ∈ ctx.watchers, wt.initThrows = true) →
      (restart env ctx w).world.isOpen w.nextId = false) := by
  refine ⟨?_, ?_, ?_, ?_⟩
  · simp [restart, herr]
  · simp only [restart, herr]
    exact init_state_no_finalize env ctx w
  · intro hcur
    simp only [restart, herr]
    exact init_state_frame env ctx w ctx.lState hcur
  · intro hreq hthrow
    simp only [restart, herr]
    exact (init_state_luaInit_throw env ctx w hreq hthrow).1

/-- Witness for C2 (amended): a failing `require` leaves the context
unchanged; a throwing watcher `lua_init` leaves the new state closed. -/
theorem claim_C2_witness :
    ((init_state envAllFail ctxOnePkg wOne).newState
        = Except.error ("Lua runtime error requiring package foo") ∧
     (init_state envAllOk ctxInitThrow wOne).newState
        = Except.error ("watcher lua_init threw")) ∧
    (restart envAllFail ctxOnePkg wOne).ctx = ctxOnePkg ∧
    (restart envAllOk ctxInitThrow wOne).world.isOpen wOne.nextId = false :=
  ⟨⟨by decide, by decide⟩,
   (claim_C2 envAllFail ctxOnePkg wOne
     ("Lua runtime error requiring package foo") (by decide)).1,
   (claim_C2 envAllOk ctxInitThrow wOne ("watcher lua_init threw")
     (by decide)).2.2.2 (by decide) (by decide)⟩

/-- C3: during a successful `restart()` the callbacks occur in order —
every watcher's `lua_init` with the fresh state before the start script
and before the swap, then every watcher's `lua_finalize` on the old
context, then the swap and close of the old state, then every watcher's
`lua_restarted` — and the replay segments before them contain no
callback, swap or close events.  The equality holds for arbitrary
`finalizeThrows` / `restartedThrows` flags, so exceptions thrown there are
swallowed and do not abort the sequence. -/
theorem claim_C3 (env : Env) (ctx : LuaContext) (w : World)
    (hok : initSucceeds env ctx) (hfresh : w.isOpen w.nextId = false) :
    (restart env ctx w).trace =
      (ctx.package_dirs.map (Event.addPackagePath w.nextId)
        ++ ctx.cpackage_dirs.map (Event.addCPackagePath w.nextId)
        ++ ctx.packages.map (Event.requirePackage w.nextId)
        ++ ctx.bindingEntries.map
            (fun p => Event.setGlobalVar w.nextId p.1 p.2))
      ++ ctx.watchers.map (fun wt => Event.luaInitCall wt.wid)
      ++ scriptTrace env w.nextId ctx.start_script
      ++ ctx.watchers.map (fun wt => Event.luaFinalizeCall wt.wid)
      ++ [Event.swapStates ctx.lState w.nextId, Event.closeState ctx.lState]
      ++ ctx.watchers.map (fun wt => Event.luaRestartedCall wt.wid) ∧
    (∀ e ∈ ctx.package_dirs.map (Event.addPackagePath w.nextId)
        ++ ctx.cpackage_dirs.map (Event.addCPackagePath w.nextId)
        ++ ctx.packages.map (Event.requirePackage w.nextId)
        ++ ctx.bindingEntries.map
            (fun p => Event.setGlobalVar w.nextId p.1 p.2)
        ++ scriptTrace env w.nextId ctx.start_script,
      e.isCallbackOrSwap = false) ∧
    (restart env ctx w).ctx.lState = w.nextId := by
  have hres := restart_ok env ctx w hok hfresh
  refine ⟨?_, ?_, by rw [hres]⟩
  · rw [hres]
    simp [initTraceOk, List.append_assoc]
  · intro e he
    simp only [List.mem_append] at he
    rcases he with ((((h1 | h2) | h3) | h4) | h5)
    · rcases List.mem_map.mp h1 with ⟨d, _, rfl⟩
      rfl
    · rcases List.mem_map.mp h2 with ⟨d, _, rfl⟩
      rfl
    · rcases List.mem_map.mp h3 with ⟨q, _, rfl⟩
      rfl
    · rcases List.mem_map.mp h4 with ⟨q, _, rfl⟩
      rfl
    · have hde : (∃ p, e = Event.doFileEvent w.nextId p)
          ∨ (∃ p, e = Event.requirePackage w.nextId p) := by
        cases hst : ctx.start_script with
        | none => rw [hst] at h5; simp [scriptTrace] at h5
        | some s =>
          rw [hst] at h5
          by_cases hr : env.readable s
          · simp [scriptTrace, hr] at h5
            exact Or.inl ⟨s, h5⟩
          · simp [scriptTrace, hr] at h5
            exact Or.inr ⟨s, h5⟩
      rcases hde with ⟨p, rfl⟩ | ⟨p, rfl⟩ <;> rfl

/-- Witness for C3: two watchers, the second with a throwing finalizer;
the restart trace is exactly init-init-finalize-finalize-swap-close-
restarted-restarted, so the throwing finalizer did not abort the
sequence. -/
theorem claim_C3_witness :
    ((∀ wt ∈ ctxWatched.watchers, wt.initThrows = false) ∧
     watcherFinThrows.finalizeThrows = true ∧
     wOne.isOpen wOne.nextId = false) ∧
    (restart envAllOk ctxWatched wOne).trace
      = [Event.luaInitCall 10, Event.luaInitCall 11,
         Event.luaFinalizeCall 10, Event.luaFinalizeCall 11,
         Event.swapStates 0 1, Event.closeState 0,
         Event.luaRestartedCall 10, Event.luaRestartedCall 11] ∧
    (restart envAllOk ctxWatched wOne).ctx.lState = 1 :=
  ⟨⟨by decide, by decide, by decide⟩,
   (claim_C3 envAllOk ctxWatched wOne ⟨by decide, by decide, by decide⟩
     (by decide)).1,
   (claim_C3 envAllOk ctxWatched wOne ⟨by decide, by decide, by decide⟩
     (by decide)).2.2⟩

/-- C6: a start script set via `set_start_script` is recorded and executed
once immediately under the dispatch rule — `do_file` when
`access(script, R_OK) == 0`, Lua `require` otherwise — and `init_state`
(run by every successful restart) applies the same dispatch rule to the
recorded script in the new state, as the last step of initialization. -/
theorem claim_C6 (env : Env) (ctx ctx2 : LuaContext) (w w2 : World)
    (script : String)
    (hscr : startScriptOkB env (some script) = true)
    (hset : ctx2.start_script = some script)
    (hok : initSucceeds env ctx2) (hfresh : w2.isOpen w2.nextId = false) :
    ((set_start_script env ctx (some script) w).1 = none ∧
     (set_start_script env ctx (some script) w).2.1.start_script
        = some script ∧
     (set_start_script env ctx (some script) w).2.2.2
        = (if env.readable script then [Event.doFileEvent ctx.lState script]
           else [Event.requirePackage ctx.lState script])) ∧
    (init_state env ctx2 w2).trace
      = (ctx2.package_dirs.map (Event.addPackagePath w2.nextId)
          ++ ctx2.cpackage_dirs.map (Event.addCPackagePath w2.nextId)
          ++ ctx2.packages.map (Event.requirePackage w2.nextId)
          ++ ctx2.bindingEntries.map
              (fun p => Event.setGlobalVar w2.nextId p.1 p.2)
          ++ ctx2.watchers.map (fun wt => Event.luaInitCall wt.wid))
        ++ (if env.readable script
            then [Event.doFileEvent w2.nextId script]
            else [Event.requirePackage w2.nextId script]) := by
  constructor
  · by_cases hr : env.readable script
    · have hd : env.doFileOk script = true := by
        simpa [startScriptOkB, hr] using hscr
      refine ⟨?_, ?_, ?_⟩ <;> simp [set_start_script, hr, hd]
    · have hq : env.requireOk script = true := by
        simpa [startScriptOkB, hr] using hscr
      refine ⟨?_, ?_, ?_⟩ <;> simp [set_start_script, hr, hq]
  · have htr := (init_state_ok env ctx2 w2 hok hfresh).2.2
    rw [htr]
    simp [initTraceOk, hset, scriptTrace, List.append_assoc]

/-- Witness for C6: with a readable script the dispatch is `do_file`; with
an unreadable one it is `require`, both in `set_start_script` and in
`init_state`. -/
theorem claim_C6_witness :
    (startScriptOkB envAllOk (some ("boot")) = true ∧
     startScriptOkB envRequireOnly (some ("boot")) = true ∧
     ctxStartScript.start_script = some ("boot")) ∧
    (set_start_script envAllOk ctxBase (some ("boot")) wOne).2.2.2
      = [Event.doFileEvent 0 ("boot")] ∧
    (set_start_script envRequireOnly ctxBase (some ("boot")) wOne).2.2.2
      = [Event.requirePackage 0 ("boot")] ∧
    (init_state envRequireOnly ctxStartScript wOne).trace
      = [Event.requirePackage 1 ("boot")] :=
  ⟨⟨by decide, by decide, by decide⟩,
   (claim_C6 envAllOk ctxBase ctxStartScript wOne wOne ("boot") (by decide)
     (by decide) ⟨by decide, by decide, by decide⟩ (by decide)).1.2.2,
   (claim_C6 envRequireOnly ctxBase ctxStartScript wOne wOne ("boot")
     (by decide) (by decide) ⟨by decide, by decide, by decide⟩
     (by decide)).1.2.2,
   (claim_C6 envRequireOnly ctxBase ctxStartScript wOne wOne ("boot")
     (by decide) (by decide) ⟨by decide, by decide, by decide⟩
     (by decide)).2⟩

/-- C4: a context built with `watch_dirs = true` owns a monitor carrying
the filter `^[^.].*\.lua$` and itself as listener; a delivered
`fam_event` triggers `restart()`; a file change reaches `restart` exactly
when the monitor delivers it, and the filter accepts exactly the
non-hidden filenames with a `.lua` suffix; directories added via
`add_package_dir`, `add_cpackage_dir` and `add_watchdir` are watched. -/
theorem claim_C4 (env : Env) (tb : Bool) (w w2 : World) (ctx : LuaContext)
    (f : FileAlterationMonitor) (dir filename path : String)
    (hfam : ctx.fam = some f) :
    (newLuaContext env true tb w).1.fam
      = some { filters := [luaFileFilter], watchedDirs := [],
               watchedFiles := [], hasListener := true } ∧
    fam_event env ctx filename 0 w2 = restart env ctx w2 ∧
    (famDelivers f dir filename = true →
      processFamChange env ctx dir filename w2 = restart env ctx w2) ∧
    (famDelivers f dir filename = false →
      processFamChange env ctx dir filename w2
        = { ctx := ctx, world := w2, trace := [] }) ∧
    (matchesFilter luaFileFilter filename = true ↔
      ∃ c rest, filename.data = c :: rest ∧ c ≠ '.' ∧
        ['.', 'l', 'u', 'a'] <:+ rest) ∧
    (add_package_dir ctx path w2).1.fam
      = some { f with watchedDirs := f.watchedDirs ++ [path] } ∧
    (add_cpackage_dir ctx path w2).1.fam
      = some { f with watchedDirs := f.watchedDirs ++ [path] } ∧
    (add_watchdir ctx path).fam
      = some { f with watchedDirs := f.watchedDirs ++ [path] } := by
  refine ⟨newLuaContext_fam env true tb w, rfl, ?_, ?_, ?_, ?_, ?_, ?_⟩
  · intro hd
    simp [processFamChange, hfam, hd, fam_event]
  · intro hd
    simp [processFamChange, hfam, hd]
  · constructor
    · intro hm
      simp only [matchesFilter, if_pos] at hm
      cases hfd : filename.data with
      | nil => rw [hfd] at hm; cases hm
      | cons c rest =>
        rw [hfd] at hm
        simp only [Bool.and_eq_true, bne_iff_ne] at hm
        exact ⟨c, rest, rfl, hm.1,
          List.isSuffixOf_iff_suffix.mp hm.2⟩
    · rintro ⟨c, rest, hfd, hc, hsuf⟩
      simp only [matchesFilter, if_pos, hfd]
      simp [Bool.and_eq_true, bne_iff_ne, hc,
        List.isSuffixOf_iff_suffix.mpr hsuf]
  · simp [add_package_dir, hfam]
  · simp [add_cpackage_dir, hfam]
  · simp [add_watchdir, hfam]

/-- Witness for C4: the constructor installs the filter; `init.lua` in the
watched directory triggers a restart, while `.hidden.lua` does not pass
the filter; `add_package_dir` watches the added directory. -/
theorem claim_C4_witness :
    (ctxFam.fam = some famBase ∧
     famDelivers famBase ("/opt/lua") ("init.lua") = true ∧
     matchesFilter luaFileFilter (".hidden.lua") = false) ∧
    (newLuaContext envAllOk true true wOne).1.fam
      = some { filters := [luaFileFilter], watchedDirs := [],
               watchedFiles := [], hasListener := true } ∧
    processFamChange envAllOk ctxFam ("/opt/lua") ("init.lua") wOne
      = restart envAllOk ctxFam wOne ∧
    (add_package_dir ctxFam ("/pkg") wOne).1.fam
      = some { famBase with
               watchedDirs := famBase.watchedDirs ++ ["/pkg"] } :=
  ⟨⟨by decide, by decide, by decide⟩,
   (claim_C4 envAllOk true wOne wOne ctxFam famBase ("/opt/lua")
     ("init.lua") ("/pkg") (by decide)).1,
   (claim_C4 envAllOk true wOne wOne ctxFam famBase ("/opt/lua")
     ("init.lua") ("/pkg") (by decide)).2.2.1 (by decide),
   (claim_C4 envAllOk true wOne wOne ctxFam famBase ("/opt/lua")
     ("init.lua") ("/pkg") (by decide)).2.2.2.2.2.1⟩

end LuaUtils
